import Mathlib

/-!
Shallow embedding of the websocketz WebSocket library core
(frame codec, close codes, message reassembler, auto-responder,
fragmenter, send paths and handshake key derivation), with theorems
checking the natural-language specification against it.

Bytes are modelled as `Nat` (with explicit `% 2 ^ 32` where the source
uses wrapping 32-bit arithmetic), byte buffers as `List Nat`, and the
host is modelled as a 64-bit machine (`usize` = `u64`), so
`usize::try_from` on a `u64` never fails.
-/

set_option maxRecDepth 10000
set_option maxHeartbeats 2000000

deriving instance DecidableEq for Except

namespace Websocketz

/-- Wire opcodes, `src/opcode.rs`. -/
inductive OpCode where
  | Continuation
  | Text
  | Binary
  | Close
  | Ping
  | Pong
deriving DecidableEq, Repr

/-- Numeric value of an opcode (the `repr(u8)` discriminants). -/
def OpCode.val : OpCode → Nat
  | .Continuation => 0x0
  | .Text => 0x1
  | .Binary => 0x2
  | .Close => 0x8
  | .Ping => 0x9
  | .Pong => 0xA

/-- `OpCode::try_from(u8)`, `src/opcode.rs`: `None` models `Err(InvalidOpCode)`. -/
def OpCode.ofNat? (v : Nat) : Option OpCode :=
  if v = OpCode.Continuation.val then some .Continuation
  else if v = OpCode.Text.val then some .Text
  else if v = OpCode.Binary.val then some .Binary
  else if v = OpCode.Close.val then some .Close
  else if v = OpCode.Ping.val then some .Ping
  else if v = OpCode.Pong.val then some .Pong
  else none

/-- `OpCode::is_control`, `src/opcode.rs`. -/
def OpCode.is_control : OpCode → Bool
  | .Close | .Ping | .Pong => true
  | _ => false

/-- WebSocket close codes, `src/close_code.rs`. -/
inductive CloseCode where
  | Normal
  | Away
  | Protocol
  | Unsupported
  | Status
  | Abnormal
  | Invalid
  | Policy
  | Size
  | Extension
  | Error
  | Restart
  | Again
  | Tls
  | Reserved (code : Nat)
  | Iana (code : Nat)
  | Library (code : Nat)
  | Bad (code : Nat)
deriving DecidableEq, Repr

/-- `CloseCode::is_allowed`, `src/close_code.rs`. -/
def CloseCode.is_allowed : CloseCode → Bool
  | .Bad _ | .Reserved _ | .Status | .Abnormal | .Tls => false
  | _ => true

/-- `CloseCode::from_u16`, `src/close_code.rs`. -/
def CloseCode.from_u16 (code : Nat) : CloseCode :=
  if code = 1000 then .Normal
  else if code = 1001 then .Away
  else if code = 1002 then .Protocol
  else if code = 1003 then .Unsupported
  else if code = 1005 then .Status
  else if code = 1006 then .Abnormal
  else if code = 1007 then .Invalid
  else if code = 1008 then .Policy
  else if code = 1009 then .Size
  else if code = 1010 then .Extension
  else if code = 1011 then .Error
  else if code = 1012 then .Restart
  else if code = 1013 then .Again
  else if code = 1015 then .Tls
  else if 1 ≤ code ∧ code ≤ 999 then .Bad code
  else if 1016 ≤ code ∧ code ≤ 2999 then .Reserved code
  else if 3000 ≤ code ∧ code ≤ 3999 then .Iana code
  else if 4000 ≤ code ∧ code ≤ 4999 then .Library code
  else .Bad code

/-- `CloseCode::into_u16`, `src/close_code.rs`. -/
def CloseCode.into_u16 : CloseCode → Nat
  | .Normal => 1000
  | .Away => 1001
  | .Protocol => 1002
  | .Unsupported => 1003
  | .Status => 1005
  | .Abnormal => 1006
  | .Invalid => 1007
  | .Policy => 1008
  | .Size => 1009
  | .Extension => 1010
  | .Error => 1011
  | .Restart => 1012
  | .Again => 1013
  | .Tls => 1015
  | .Reserved code => code
  | .Iana code => code
  | .Library code => code
  | .Bad code => code

/-- `CloseFrame`, `src/close_frame.rs`. The reason is a `&str` in the
source; it is modelled as its UTF-8 bytes. -/
structure CloseFrame where
  code : CloseCode
  reason : List Nat
deriving DecidableEq, Repr

/-- `CloseFrame::no_reason`, `src/close_frame.rs`. -/
def CloseFrame.no_reason (code : CloseCode) : CloseFrame :=
  { code := code, reason := [] }

/-- A received frame, `src/frame.rs`. The payload is a byte slice. -/
structure Frame where
  fin : Bool
  opcode : OpCode
  payload : List Nat
deriving DecidableEq, Repr

/-- `Message`, `src/message.rs`. `Text` carries its UTF-8 bytes. -/
inductive Message where
  | Text (payload : List Nat)
  | Binary (payload : List Nat)
  | Ping (payload : List Nat)
  | Pong (payload : List Nat)
  | Close (frame : Option CloseFrame)
deriving DecidableEq, Repr

/-- `Message::is_close`, `src/message.rs`. -/
def Message.is_close : Message → Bool
  | .Close _ => true
  | _ => false

/-- `Message::opcode`, `src/message.rs`. -/
def Message.opcode : Message → OpCode
  | .Text _ => .Text
  | .Binary _ => .Binary
  | .Ping _ => .Ping
  | .Pong _ => .Pong
  | .Close _ => .Close

/-- Errors from `FramesCodec::decode`, `src/error.rs`. -/
inductive FrameDecodeError where
  | ReservedBitsNotZero
  | UnmaskedFrameFromClient
  | MaskedFrameFromServer
  | InvalidOpCode
  | PayloadTooLarge
  | ControlFrameFragmented
  | ControlFrameTooLarge
deriving DecidableEq, Repr

/-- Errors from `FramesCodec` encoding, `src/error.rs`. -/
inductive FrameEncodeError where
  | BufferTooSmall
deriving DecidableEq, Repr

/-- `ProtocolError`, `src/error.rs` (the `InvalidCloseCode` payload follows
`src/websocket_core.rs`, which carries the offending code). -/
inductive ProtocolError where
  | InvalidCloseFrame
  | InvalidCloseCode (code : CloseCode)
  | InvalidUTF8
  | InvalidFragment
  | InvalidContinuationFrame
deriving DecidableEq, Repr

/-- `OnFrameError`, `src/websocket_core.rs`. -/
inductive OnFrameError where
  | Protocol (err : ProtocolError)
  | FragmentsBufferTooSmall
deriving DecidableEq, Repr

/-- `FragmentationError`, `src/error.rs`. -/
inductive FragmentationError where
  | InvalidFragmentSize
  | CanNotBeFragmented
deriving DecidableEq, Repr

/-- `WriteError`, `src/error.rs`, restricted to the variants the modelled
operations can produce (the I/O layer is not modelled, so `WriteFrame`
and `WriteHttp` never occur). -/
inductive WriteError where
  | ConnectionClosed
deriving DecidableEq, Repr

/-- `ReadError`, `src/error.rs`, restricted to the variants the modelled
operations can produce. -/
inductive ReadError where
  | Protocol (err : ProtocolError)
  | FragmentsBufferTooSmall
deriving DecidableEq, Repr

/-- The top-level `Error`, `src/error.rs`, over the modelled variants. -/
inductive WsError where
  | Read (err : ReadError)
  | Write (err : WriteError)
  | Fragmentation (err : FragmentationError)
deriving DecidableEq, Repr

/-- Modelled from the spec: the masking module `src/mask.rs` (function
`mask::unmask`) is referenced by the codec but is not in the source tree.
Spec §4.1: "Unmasking is an XOR loop over the payload using mask[i mod 4]".
The index argument tracks the position within the payload. -/
def unmaskBytes (key : List Nat) : Nat → List Nat → List Nat
  | _, [] => []
  | i, b :: bs => (b ^^^ key.getD (i % 4) 0) :: unmaskBytes key (i + 1) bs

/-- A UTF-8 continuation byte (0x80..=0xBF). -/
def isCont (c : Nat) : Bool := 0x80 ≤ c && c ≤ 0xBF

/-- Validity of a byte sequence as UTF-8, the check behind
`core::str::from_utf8` (RFC 3629 well-formed byte sequences), used by the
reassembler and the close-frame parser. -/
def validUtf8 : List Nat → Bool
  | [] => true
  | b :: rest =>
    if b ≤ 0x7F then validUtf8 rest
    else if 0xC2 ≤ b && b ≤ 0xDF then
      match rest with
      | c :: rest₂ => isCont c && validUtf8 rest₂
      | [] => false
    else if b = 0xE0 then
      match rest with
      | c :: d :: rest₃ => (0xA0 ≤ c && c ≤ 0xBF) && isCont d && validUtf8 rest₃
      | _ => false
    else if 0xE1 ≤ b && b ≤ 0xEC then
      match rest with
      | c :: d :: rest₃ => isCont c && isCont d && validUtf8 rest₃
      | _ => false
    else if b = 0xED then
      match rest with
      | c :: d :: rest₃ => (0x80 ≤ c && c ≤ 0x9F) && isCont d && validUtf8 rest₃
      | _ => false
    else if 0xEE ≤ b && b ≤ 0xEF then
      match rest with
      | c :: d :: rest₃ => isCont c && isCont d && validUtf8 rest₃
      | _ => false
    else if b = 0xF0 then
      match rest with
      | c :: d :: e :: rest₄ => (0x90 ≤ c && c ≤ 0xBF) && isCont d && isCont e && validUtf8 rest₄
      | _ => false
    else if 0xF1 ≤ b && b ≤ 0xF3 then
      match rest with
      | c :: d :: e :: rest₄ => isCont c && isCont d && isCont e && validUtf8 rest₄
      | _ => false
    else if b = 0xF4 then
      match rest with
      | c :: d :: e :: rest₄ => (0x80 ≤ c && c ≤ 0x8F) && isCont d && isCont e && validUtf8 rest₄
      | _ => false
    else false

/-- The low 7 bits of frame byte 1: `src[1] & 0x7F`, `src/codec.rs`. -/
def lengthCodeOf (b1 : Nat) : Nat := b1 &&& 0x7F

/-- Extended-length byte count for a length code, `src/codec.rs`:
0 for codes below 126, 2 for code 126, 8 for code 127. -/
def extraOf (lc : Nat) : Nat := if lc = 126 then 2 else if lc = 127 then 8 else 0

/-- Payload length decoded from a frame, `src/codec.rs`
(`DecodeState::DecodedHeader` arm): the length code itself, or the 2- or
8-byte big-endian extended length. -/
def payloadLenOf (src : List Nat) (lc extra : Nat) : Nat :=
  if extra = 0 then lc
  else if extra = 2 then 256 * src.getD 2 0 + src.getD 3 0
  else
    src.getD 2 0 * 256 ^ 7 + src.getD 3 0 * 256 ^ 6 + src.getD 4 0 * 256 ^ 5 +
      src.getD 5 0 * 256 ^ 4 + src.getD 6 0 * 256 ^ 3 + src.getD 7 0 * 256 ^ 2 +
      src.getD 8 0 * 256 + src.getD 9 0

/-- The fields of `DecodeState::DecodedHeader`, `src/codec.rs`. -/
structure HeaderState where
  fin : Bool
  opcode : OpCode
  masked : Bool
  length_code : Nat
  extra : Nat
  min_src_len : Nat
deriving DecidableEq, Repr

/-- The fields of `DecodeState::DecodedPayloadLength`, `src/codec.rs`. -/
structure PayloadState where
  fin : Bool
  opcode : OpCode
  mask : Option (List Nat)
  payload_len : Nat
  min_src_len : Nat
deriving DecidableEq, Repr

/-- The `DecodeState::Init` arm of `FramesCodec::decode`, `src/codec.rs`:
parse the 2-byte header, checking reserved bits, opcode and the role
rules; `ok none` models `Ok(None)` (need more bytes). -/
def decodePhase1 (unmask mask : Bool) (src : List Nat) :
    Except FrameDecodeError (Option HeaderState) :=
  let is_server := unmask && !mask
  let is_client := mask && !unmask
  if src.length < 2 then .ok none
  else
    let b0 := src.getD 0 0
    let fin := b0 &&& 0x80 != 0
    if b0 &&& 0x40 != 0 || b0 &&& 0x20 != 0 || b0 &&& 0x10 != 0 then
      .error .ReservedBitsNotZero
    else
      match OpCode.ofNat? (b0 &&& 0x0F) with
      | none => .error .InvalidOpCode
      | some opcode =>
        let b1 := src.getD 1 0
        let masked := b1 &&& 0x80 != 0
        if is_server && !masked then .error .UnmaskedFrameFromClient
        else if is_client && masked then .error .MaskedFrameFromServer
        else
          let length_code := lengthCodeOf b1
          let extra := extraOf length_code
          .ok (some
            { fin := fin, opcode := opcode, masked := masked,
              length_code := length_code, extra := extra,
              min_src_len := 2 + extra + (if masked then 4 else 0) })

/-- The `DecodeState::DecodedHeader` arm of `FramesCodec::decode`,
`src/codec.rs`: decode the payload length, capture the mask key, enforce
the control-frame rules. On the modelled 64-bit host the `usize::try_from`
of the 8-byte length (error `PayloadTooLarge`) always succeeds. -/
def decodePhase2 (src : List Nat) (st : HeaderState) :
    Except FrameDecodeError (Option PayloadState) :=
  if src.length < st.min_src_len then .ok none
  else
    let payload_len := payloadLenOf src st.length_code st.extra
    let mask_key :=
      if st.masked then
        some [src.getD (2 + st.extra) 0, src.getD (3 + st.extra) 0,
              src.getD (4 + st.extra) 0, src.getD (5 + st.extra) 0]
      else none
    if st.opcode.is_control && !st.fin then .error .ControlFrameFragmented
    else if st.opcode.is_control && decide (125 < payload_len) then
      .error .ControlFrameTooLarge
    else
      .ok (some
        { fin := st.fin, opcode := st.opcode, mask := mask_key,
          payload_len := payload_len, min_src_len := st.min_src_len + payload_len })

/-- The `DecodeState::DecodedPayloadLength` arm of `FramesCodec::decode`,
`src/codec.rs`: slice the payload, unmask it in place when this endpoint
is a server, return the frame and the consumed count. -/
def decodePhase3 (unmask mask : Bool) (src : List Nat) (st : PayloadState) :
    Option (Frame × Nat) :=
  let is_server := unmask && !mask
  if src.length < st.min_src_len then none
  else
    let payload := (src.drop (st.min_src_len - st.payload_len)).take st.payload_len
    let payload :=
      if is_server then
        match st.mask with
        | some k => unmaskBytes k 0 payload
        | none => payload
      else payload
    some ({ fin := st.fin, opcode := st.opcode, payload := payload }, st.min_src_len)

/-- `FramesCodec::decode`, `src/codec.rs`, driven from `DecodeState::Init`
over the byte sequence `src`: the source's loop passes through the three
`DecodeState` arms in order, so a decode from `Init` is their sequential
composition, with `ok none` modelling `Ok(None)` (need more bytes). -/
def decode (unmask mask : Bool) (src : List Nat) :
    Except FrameDecodeError (Option (Frame × Nat)) :=
  match decodePhase1 unmask mask src with
  | .error e => .error e
  | .ok none => .ok none
  | .ok (some st) =>
    match decodePhase2 src st with
    | .error e => .error e
    | .ok none => .ok none
    | .ok (some st2) =>
      match decodePhase3 unmask mask src st2 with
      | none => .ok none
      | some r => .ok (some r)

/-- `Header::write`, `src/frame.rs`: the 2-, 4- or 10-byte frame header
written into a destination of length `dstLen`, or `none` when the
destination is too short. -/
def headerWrite (fin : Bool) (opcode : OpCode) (payload_len dstLen : Nat) :
    Option (List Nat) :=
  if dstLen < 2 then none
  else
    let b0 := ((if fin then 1 else 0) <<< 7) ||| opcode.val
    if payload_len < 126 then some [b0, payload_len]
    else if payload_len < 65536 then
      if dstLen < 4 then none
      else some [b0, 126, payload_len / 256 % 256, payload_len % 256]
    else
      if dstLen < 10 then none
      else
        some [b0, 127,
              payload_len / 256 ^ 7 % 256, payload_len / 256 ^ 6 % 256,
              payload_len / 256 ^ 5 % 256, payload_len / 256 ^ 4 % 256,
              payload_len / 256 ^ 3 % 256, payload_len / 256 ^ 2 % 256,
              payload_len / 256 % 256, payload_len % 256]

/-- The mask-bit write `dst[1] |= 0x80` of `FramesCodec::encode_inner`,
`src/codec.rs`, applied to the header bytes. -/
def setMaskBit : List Nat → List Nat
  | a :: b :: rest => a :: (b ||| 0x80) :: rest
  | l => l

/-- `FramesCodec::encode_inner`, `src/codec.rs`, for a payload-copying
`write_payload` closure (both `Frame` and `Message` items copy
`payload_len` bytes and fail when the remaining destination is shorter).
`rngKey` is the 4-byte key drawn from the RNG when the codec is a client;
the result is the byte sequence written to the destination. -/
def encodeInner (unmask mask : Bool) (rngKey : List Nat) (fin : Bool)
    (opcode : OpCode) (payload : List Nat) (dstLen : Nat) :
    Except FrameEncodeError (List Nat) :=
  let is_client := mask && !unmask
  match headerWrite fin opcode payload.length dstLen with
  | none => .error .BufferTooSmall
  | some header =>
    if is_client then
      if header.length + 4 > dstLen then .error .BufferTooSmall
      else
        let header := setMaskBit header
        if dstLen - (header.length + 4) < payload.length then .error .BufferTooSmall
        else .ok (header ++ rngKey ++ unmaskBytes rngKey 0 payload)
    else
      if dstLen - header.length < payload.length then .error .BufferTooSmall
      else .ok (header ++ payload)

/-- `WebSocketCore::extract_close_frame`, `src/websocket_core.rs`: parse a
Close frame's payload. -/
def extractCloseFrame (payload : List Nat) : Except ProtocolError (Option CloseFrame) :=
  if payload.length = 0 then .ok none
  else if payload.length = 1 then .error .InvalidCloseFrame
  else
    let code := CloseCode.from_u16 (256 * payload.getD 0 0 + payload.getD 1 0)
    if !code.is_allowed then .error (.InvalidCloseCode code)
    else if validUtf8 (payload.drop 2) then .ok (some { code := code, reason := payload.drop 2 })
    else .error .InvalidUTF8

/-- Overwrite `buf[start .. start + data.length)` with `data` (the
`copy_from_slice` writes into the fragments buffer). -/
def writeAt (buf : List Nat) (start : Nat) (data : List Nat) : List Nat :=
  buf.take start ++ data ++ buf.drop (start + data.length)

/-- `Fragmented`, `src/websocket_core.rs`: opcode of the first fragment and
current write index. -/
structure Fragmented where
  opcode : OpCode
  index : Nat
deriving DecidableEq, Repr

/-- `FragmentsState`, `src/websocket_core.rs`: the in-progress fragment
record and the caller-owned fragments buffer (fixed length). -/
structure FragState where
  fragmented : Option Fragmented
  buffer : List Nat
deriving DecidableEq, Repr

/-- `WebSocketCore::on_frame`, `src/websocket_core.rs`: feed one decoded
frame to the message reassembler; returns the result together with the
updated fragments state. The source's `Option` wrapper around the result
is dropped (every path returns `Some`), and the two `unreachable!` arms
are modelled as the no-message outcome. -/
def onFrame (fs : FragState) (frame : Frame) :
    Except OnFrameError (Option Message) × FragState :=
  match frame.opcode with
  | .Text | .Binary =>
    if frame.fin then
      if fs.fragmented.isSome then (.error (.Protocol .InvalidFragment), fs)
      else
        match frame.opcode with
        | .Binary => (.ok (some (.Binary frame.payload)), fs)
        | _ =>
          -- the OpCode::Text arm (other opcodes cannot reach this match)
          if validUtf8 frame.payload then (.ok (some (.Text frame.payload)), fs)
          else (.error (.Protocol .InvalidUTF8), fs)
    else
      if frame.payload.length > fs.buffer.length then (.error .FragmentsBufferTooSmall, fs)
      else
        (.ok none,
         { fragmented := some { opcode := frame.opcode, index := frame.payload.length },
           buffer := writeAt fs.buffer 0 frame.payload })
  | .Continuation =>
    match fs.fragmented with
    | none => (.error (.Protocol .InvalidContinuationFrame), fs)
    | some fragmented =>
      if fragmented.index + frame.payload.length > fs.buffer.length then
        (.error .FragmentsBufferTooSmall, fs)
      else
        let buffer := writeAt fs.buffer fragmented.index frame.payload
        let index := fragmented.index + frame.payload.length
        if frame.fin then
          match fragmented.opcode with
          | .Text =>
            if validUtf8 (buffer.take index) then
              (.ok (some (.Text (buffer.take index))), { fragmented := none, buffer := buffer })
            else
              (.error (.Protocol .InvalidUTF8),
               { fragmented := some { opcode := fragmented.opcode, index := index },
                 buffer := buffer })
          | .Binary =>
            (.ok (some (.Binary (buffer.take index))), { fragmented := none, buffer := buffer })
          | _ =>
            -- unreachable in the source: the opcode was recorded as Text or Binary
            (.ok none,
             { fragmented := some { opcode := fragmented.opcode, index := index },
               buffer := buffer })
        else
          (.ok none,
           { fragmented := some { opcode := fragmented.opcode, index := index },
             buffer := buffer })
  | .Close =>
    match extractCloseFrame frame.payload with
    | .error err => (.error (.Protocol err), fs)
    | .ok close_frame => (.ok (some (.Close close_frame)), fs)
  | .Ping => (.ok (some (.Ping frame.payload)), fs)
  | .Pong => (.ok (some (.Pong frame.payload)), fs)

/-- The `Auto` flags, `src/websocket_core.rs`. -/
structure AutoFlags where
  pong : Bool
  close : Bool
deriving DecidableEq, Repr

/-- `ConnectionState`, `src/websocket_core.rs`. -/
structure ConnectionState where
  closed : Bool
  auto : AutoFlags
deriving DecidableEq, Repr

/-- `OnFrame`, `src/websocket_core.rs`: what the auto-responder decided. -/
inductive OnFrameAction where
  | Send (message : Message)
  | Noop (frame : Frame)
deriving DecidableEq, Repr

/-- `WebSocketCore::auto`, `src/websocket_core.rs`: the auto-responder
closure over a captured copy of the connection state. -/
def auto (state : ConnectionState) (frame : Frame) : Except ProtocolError OnFrameAction :=
  if state.auto.pong && (frame.opcode == .Ping) then .ok (.Send (.Pong frame.payload))
  else if state.auto.close && (frame.opcode == .Close) && !state.closed then
    match extractCloseFrame frame.payload with
    | .error err => .error err
    | .ok (some f) => .ok (.Send (.Close (some f)))
    | .ok none => .ok (.Send (.Close (some (CloseFrame.no_reason .Normal))))
  else .ok (.Noop frame)

/-- The four outputs of one `ReadAutoCaller::call` round: the message
written back to the peer (if any), the value returned to the read loop
(`none` models the end-of-stream return), and the updated connection and
fragments state. -/
structure AutoStep where
  sent : Option Message
  result : Option (Except WsError (Option Message))
  state : ConnectionState
  frag : FragState
deriving DecidableEq, Repr

/-- `From<OnFrameError> for Error`, `src/websocket_core.rs`. -/
def fromOnFrameError : OnFrameError → WsError
  | .Protocol err => .Read (.Protocol err)
  | .FragmentsBufferTooSmall => .Read .FragmentsBufferTooSmall

/-- `ReadAutoCaller::call`, `src/functions.rs`, from the point where a
frame has been decoded; the underlying frame write is modelled as
succeeding (mock I/O, so `WriteError::WriteFrame` never occurs). -/
def readAutoCall (state : ConnectionState) (fs : FragState) (frame : Frame) : AutoStep :=
  match auto state frame with
  | .error err =>
    { sent := none, result := some (.error (.Read (.Protocol err))), state := state, frag := fs }
  | .ok (.Send message) =>
    let closed := message.is_close
    let state' := { state with closed := closed }
    if closed then { sent := some message, result := none, state := state', frag := fs }
    else { sent := some message, result := some (.ok none), state := state', frag := fs }
  | .ok (.Noop frame) =>
    let r := onFrame fs frame
    { sent := none, result := some (r.1.mapError fromOnFrameError), state := state, frag := r.2 }

/-- One step of `fragments::Iter::next`, `src/fragments.rs`, iterated with
fuel (the fuel `data.length` is enough whenever `fragment_size ≥ 1`,
since `pos` strictly increases each step). -/
def iterFragments : Nat → List Nat → OpCode → Nat → Nat → List Frame
  | 0, _, _, _, _ => []
  | fuel + 1, data, opcode, fragment_size, pos =>
    if data.length ≤ pos then []
    else
      let start := pos
      let e := min (start + fragment_size) data.length
      let opc := if start = 0 then opcode else OpCode.Continuation
      Frame.mk (e == data.length) opc ((data.drop start).take (e - start)) ::
        iterFragments fuel data opcode fragment_size e

/-- `FragmentsIterator::new`, `src/fragments.rs`, with the produced lazy
sequence collected into a list. -/
def fragmentsIterator (opcode : OpCode) (data : List Nat) (fragment_size : Nat) : List Frame :=
  if data.length = 0 then [Frame.mk true opcode []]
  else iterFragments data.length data opcode fragment_size 0

/-- The payload bytes `Message::write` emits, `src/message.rs` (for a
Close frame: the 2-byte big-endian code then the reason bytes). -/
def Message.payloadBytes : Message → List Nat
  | .Text p | .Binary p | .Ping p | .Pong p => p
  | .Close (some f) => f.code.into_u16 / 256 % 256 :: f.code.into_u16 % 256 :: f.reason
  | .Close none => []

/-- `Message::fragments`, `src/message.rs`. -/
def Message.fragments (m : Message) (fragment_size : Nat) :
    Except FragmentationError (List Frame) :=
  if fragment_size < 1 then .error .InvalidFragmentSize
  else
    match m with
    | .Text payload => .ok (fragmentsIterator .Text payload fragment_size)
    | .Binary payload => .ok (fragmentsIterator .Binary payload fragment_size)
    | _ => .error .CanNotBeFragmented

/-- Result of a send operation: the returned value, the frames written to
the peer, and the updated connection state. -/
structure SendOutcome where
  result : Except WsError Unit
  written : List Frame
  state : ConnectionState
deriving DecidableEq, Repr

/-- `functions::send`, `src/functions.rs`, with the frame write modelled
as succeeding (mock I/O): the message goes out as a single final frame. -/
def send (state : ConnectionState) (message : Message) : SendOutcome :=
  if state.closed then
    { result := .error (.Write .ConnectionClosed), written := [], state := state }
  else
    { result := .ok ()
      written := [Frame.mk true message.opcode message.payloadBytes]
      state := { state with closed := message.is_close } }

/-- `functions::send_fragmented`, `src/functions.rs`, with the frame
writes modelled as succeeding (mock I/O). -/
def sendFragmented (state : ConnectionState) (message : Message)
    (fragment_size : Nat) : SendOutcome :=
  if state.closed then
    { result := .error (.Write .ConnectionClosed), written := [], state := state }
  else
    match message.fragments fragment_size with
    | .error err => { result := .error (.Fragmentation err), written := [], state := state }
    | .ok frames => { result := .ok (), written := frames, state := state }

/-- Big-endian bytes of `n` in `w` bytes (`to_be_bytes`). -/
def beBytes : Nat → Nat → List Nat
  | 0, _ => []
  | w + 1, n => n / 256 ^ w % 256 :: beBytes w n

/-- Left rotation of a 32-bit word by `k` bits. -/
def rotl32 (k x : Nat) : Nat := ((x <<< k) ||| (x >>> (32 - k))) % 2 ^ 32

/-- SHA-1 message padding: a 0x80 byte, zeros to 56 mod 64, then the
64-bit big-endian bit length. -/
def sha1Pad (msg : List Nat) : List Nat :=
  let padLen := (64 + 56 - (msg.length + 1) % 64) % 64
  msg ++ 0x80 :: (List.replicate padLen 0 ++ beBytes 8 (8 * msg.length))

/-- Big-endian 32-bit words from a byte list (chunk words w0..w15). -/
def bytesToWords : List Nat → List Nat
  | a :: b :: c :: d :: rest =>
    (a * 2 ^ 24 + b * 2 ^ 16 + c * 2 ^ 8 + d) :: bytesToWords rest
  | _ => []

/-- Extend the 16 chunk words to the 80-word SHA-1 schedule (`fuel` = 64
extension steps). -/
def sha1Extend : Nat → List Nat → List Nat
  | 0, ws => ws
  | fuel + 1, ws =>
    let i := ws.length
    sha1Extend fuel
      (ws ++ [rotl32 1 (ws.getD (i - 3) 0 ^^^ ws.getD (i - 8) 0 ^^^
                        ws.getD (i - 14) 0 ^^^ ws.getD (i - 16) 0)])

/-- The SHA-1 round logical function for round `i`. -/
def sha1F (i b c d : Nat) : Nat :=
  if i < 20 then (b &&& c) ||| ((b ^^^ 0xFFFFFFFF) &&& d)
  else if i < 40 then b ^^^ c ^^^ d
  else if i < 60 then (b &&& c) ||| (b &&& d) ||| (c &&& d)
  else b ^^^ c ^^^ d

/-- The SHA-1 round constant for round `i`. -/
def sha1K (i : Nat) : Nat :=
  if i < 20 then 0x5A827999
  else if i < 40 then 0x6ED9EBA1
  else if i < 60 then 0x8F1BBCDC
  else 0xCA62C1D6

/-- One SHA-1 round on the five-word state. -/
def sha1Round (ws : List Nat) (st : Nat × Nat × Nat × Nat × Nat) (i : Nat) :
    Nat × Nat × Nat × Nat × Nat :=
  let (a, b, c, d, e) := st
  let temp := (rotl32 5 a + sha1F i b c d + e + sha1K i + ws.getD i 0) % 2 ^ 32
  (temp, a, rotl32 30 b, c, d)

/-- Process one 64-byte SHA-1 chunk. -/
def sha1Chunk (h : Nat × Nat × Nat × Nat × Nat) (chunk : List Nat) :
    Nat × Nat × Nat × Nat × Nat :=
  let ws := sha1Extend 64 (bytesToWords chunk)
  let (h0, h1, h2, h3, h4) := h
  let (a, b, c, d, e) := (List.range 80).foldl (sha1Round ws) (h0, h1, h2, h3, h4)
  ((h0 + a) % 2 ^ 32, (h1 + b) % 2 ^ 32, (h2 + c) % 2 ^ 32,
   (h3 + d) % 2 ^ 32, (h4 + e) % 2 ^ 32)

/-- Split a byte list into 64-byte chunks (`fuel` bounds the recursion;
the list's own length is enough). -/
def chunks64 : Nat → List Nat → List (List Nat)
  | 0, _ => []
  | _, [] => []
  | fuel + 1, l => l.take 64 :: chunks64 fuel (l.drop 64)

/-- SHA-1 of a byte sequence, as the 20 digest bytes (the `sha1` crate
computation used by `generate_sec_accept`, `src/websocket_core.rs`). -/
def sha1 (msg : List Nat) : List Nat :=
  let padded := sha1Pad msg
  let h :=
    (chunks64 padded.length padded).foldl sha1Chunk
      (0x67452301, 0xEFCDAB89, 0x98BADCFE, 0x10325476, 0xC3D2E1F0)
  beBytes 4 h.1 ++ beBytes 4 h.2.1 ++ beBytes 4 h.2.2.1 ++
    beBytes 4 h.2.2.2.1 ++ beBytes 4 h.2.2.2.2

/-- The standard base64 alphabet, as the ASCII code of digit `i`. -/
def b64char (i : Nat) : Nat :=
  if i < 26 then 65 + i
  else if i < 52 then 97 + (i - 26)
  else if i < 62 then 48 + (i - 52)
  else if i = 62 then 43
  else 47

/-- Standard base64 encoding with '=' padding (ASCII bytes), the
`base64::engine::general_purpose::STANDARD` encoding used by the
handshake. -/
def base64Encode : List Nat → List Nat
  | a :: b :: c :: rest =>
    let n := a * 65536 + b * 256 + c
    b64char (n / 2 ^ 18) :: b64char (n / 2 ^ 12 % 64) :: b64char (n / 64 % 64) ::
      b64char (n % 64) :: base64Encode rest
  | [a, b] =>
    let n := a * 65536 + b * 256
    [b64char (n / 2 ^ 18), b64char (n / 2 ^ 12 % 64), b64char (n / 64 % 64), 61]
  | [a] =>
    let n := a * 65536
    [b64char (n / 2 ^ 18), b64char (n / 2 ^ 12 % 64), 61, 61]
  | [] => []

/-- ASCII bytes of the GUID "258EAFA5-E914-47DA-95CA-C5AB0DC85B11". -/
def guidBytes : List Nat :=
  [50, 53, 56, 69, 65, 70, 65, 53, 45, 69, 57, 49, 52, 45, 52, 55, 68, 65,
   45, 57, 53, 67, 65, 45, 67, 53, 65, 66, 48, 68, 67, 56, 53, 66, 49, 49]

/-- `WebSocketCore::generate_sec_accept`, `src/websocket_core.rs`:
base64(SHA-1(key ++ GUID)). -/
def generateSecAccept (sec_key : List Nat) : List Nat :=
  base64Encode (sha1 (sec_key ++ guidBytes))

/-- `HandshakeError`, `src/error.rs` (without the user-supplied `Other`
payload, which the model does not exercise). -/
inductive HandshakeError where
  | WrongHttpMethod
  | WrongHttpVersion
  | ConnectionClosed
  | InvalidStatusCode
  | MissingOrInvalidUpgrade
  | MissingOrInvalidConnection
  | MissingOrInvalidAccept
  | MissingOrInvalidSecVersion
  | MissingSecKey
deriving DecidableEq, Repr

/-- An HTTP header: name and value bytes (`httparse::Header`). -/
structure HttpHeader where
  name : List Nat
  value : List Nat
deriving DecidableEq, Repr

/-- A parsed HTTP response: status code and headers (`http::Response`,
`src/http.rs`). -/
structure Response where
  code : Nat
  headers : List HttpHeader
deriving DecidableEq, Repr

/-- ASCII lowercase of one byte. -/
def asciiLower (c : Nat) : Nat := if 65 ≤ c ∧ c ≤ 90 then c + 32 else c

/-- Rust's `eq_ignore_ascii_case` on byte sequences. -/
def eqIgnoreAsciiCase (a b : List Nat) : Bool :=
  a.map asciiLower == b.map asciiLower

/-- `HeaderExt::header`, `src/http.rs`: first header whose name matches
case-insensitively. -/
def headerLookup (headers : List HttpHeader) (name : List Nat) : Option HttpHeader :=
  headers.find? (fun h => eqIgnoreAsciiCase h.name name)

/-- `HeaderExt::header_value`, `src/http.rs`. -/
def headerValue (headers : List HttpHeader) (name : List Nat) : Option (List Nat) :=
  (headerLookup headers name).map (fun h => h.value)

/-- `HeaderExt::header_value_str`, `src/http.rs`: the value when it is
valid UTF-8. -/
def headerValueStr (headers : List HttpHeader) (name : List Nat) : Option (List Nat) :=
  match headerValue headers name with
  | some v => if validUtf8 v then some v else none
  | none => none

/-- ASCII bytes of "upgrade". -/
def nameUpgrade : List Nat := [117, 112, 103, 114, 97, 100, 101]

/-- ASCII bytes of "websocket". -/
def valueWebsocket : List Nat := [119, 101, 98, 115, 111, 99, 107, 101, 116]

/-- ASCII bytes of "connection". -/
def nameConnection : List Nat := [99, 111, 110, 110, 101, 99, 116, 105, 111, 110]

/-- ASCII bytes of "sec-websocket-accept". -/
def nameSecAccept : List Nat :=
  [115, 101, 99, 45, 119, 101, 98, 115, 111, 99, 107, 101, 116, 45, 97, 99,
   99, 101, 112, 116]

/-- The `upgrade` header check of `client_handshake`,
`src/websocket_core.rs`. -/
def upgradeOk (resp : Response) : Bool :=
  match headerValueStr resp.headers nameUpgrade with
  | some v => eqIgnoreAsciiCase v valueWebsocket
  | none => false

/-- The `connection` header check of `client_handshake`,
`src/websocket_core.rs`. -/
def connectionOk (resp : Response) : Bool :=
  match headerValueStr resp.headers nameConnection with
  | some v => eqIgnoreAsciiCase v nameUpgrade
  | none => false

/-- The response-validation sequence of `WebSocketCore::client_handshake`,
`src/websocket_core.rs`, on a parsed response (the caller-supplied
response inspector is modelled as succeeding). `sec_key` is the
Sec-WebSocket-Key the client sent. -/
def clientValidate (sec_key : List Nat) (resp : Response) : Except HandshakeError Unit :=
  if resp.code ≠ 101 then .error .InvalidStatusCode
  else if !upgradeOk resp then .error .MissingOrInvalidUpgrade
  else if !connectionOk resp then .error .MissingOrInvalidConnection
  else
    match headerValue resp.headers nameSecAccept with
    | none => .error .MissingOrInvalidAccept
    | some v =>
      if v ≠ generateSecAccept sec_key then .error .MissingOrInvalidAccept
      else .ok ()

/-- ASCII bytes of the sample key "dGhlIHNhbXBsZSBub25jZQ==" (RFC 6455
handshake example). -/
def sampleKeyBytes : List Nat :=
  [100, 71, 104, 108, 73, 72, 78, 104, 98, 88, 66, 115, 90, 83, 66, 117,
   98, 50, 53, 106, 90, 81, 61, 61]

/-- ASCII bytes of the expected accept "s3pPLMBiTxaQ9kYGzzhZRbK+xOo=". -/
def expectedAcceptBytes : List Nat :=
  [115, 51, 112, 80, 76, 77, 66, 105, 84, 120, 97, 81, 57, 107, 89, 71,
   122, 122, 104, 90, 82, 98, 75, 43, 120, 79, 111, 61]

/-! ## Theorems -/

/-- Claim C10: for every 16-bit value c (indeed every natural number),
converting it to a CloseCode and back is the identity:
`into_u16 (from_u16 c) = c`; in particular the catch-all classes
(Bad, Reserved, Iana, Library) preserve the exact numeric code. -/
theorem closeCode_from_into_u16 (c : Nat) : (CloseCode.from_u16 c).into_u16 = c := by
  rw [CloseCode.from_u16]
  by_cases h1 : c = 1000
  · rw [if_pos h1]; subst h1; rfl
  rw [if_neg h1]
  by_cases h2 : c = 1001
  · rw [if_pos h2]; subst h2; rfl
  rw [if_neg h2]
  by_cases h3 : c = 1002
  · rw [if_pos h3]; subst h3; rfl
  rw [if_neg h3]
  by_cases h4 : c = 1003
  · rw [if_pos h4]; subst h4; rfl
  rw [if_neg h4]
  by_cases h5 : c = 1005
  · rw [if_pos h5]; subst h5; rfl
  rw [if_neg h5]
  by_cases h6 : c = 1006
  · rw [if_pos h6]; subst h6; rfl
  rw [if_neg h6]
  by_cases h7 : c = 1007
  · rw [if_pos h7]; subst h7; rfl
  rw [if_neg h7]
  by_cases h8 : c = 1008
  · rw [if_pos h8]; subst h8; rfl
  rw [if_neg h8]
  by_cases h9 : c = 1009
  · rw [if_pos h9]; subst h9; rfl
  rw [if_neg h9]
  by_cases h10 : c = 1010
  · rw [if_pos h10]; subst h10; rfl
  rw [if_neg h10]
  by_cases h11 : c = 1011
  · rw [if_pos h11]; subst h11; rfl
  rw [if_neg h11]
  by_cases h12 : c = 1012
  · rw [if_pos h12]; subst h12; rfl
  rw [if_neg h12]
  by_cases h13 : c = 1013
  · rw [if_pos h13]; subst h13; rfl
  rw [if_neg h13]
  by_cases h14 : c = 1015
  · rw [if_pos h14]; subst h14; rfl
  rw [if_neg h14]
  by_cases h15 : 1 ≤ c ∧ c ≤ 999
  · rw [if_pos h15]; rfl
  rw [if_neg h15]
  by_cases h16 : 1016 ≤ c ∧ c ≤ 2999
  · rw [if_pos h16]; rfl
  rw [if_neg h16]
  by_cases h17 : 3000 ≤ c ∧ c ≤ 3999
  · rw [if_pos h17]; rfl
  rw [if_neg h17]
  by_cases h18 : 4000 ≤ c ∧ c ≤ 4999
  · rw [if_pos h18]; rfl
  rw [if_neg h18]; rfl

/-- Claim C9: the frame header writer chooses the shortest representation:
lengths below 126 go inline in byte 1 with a 2-byte header, lengths
126..65535 use length code 126 with a 2-byte big-endian extended length
(4-byte header), larger lengths use length code 127 with an 8-byte
big-endian extended length (10-byte header); it returns none when the
destination is shorter than the chosen header size. -/
theorem headerWrite_shortest (fin : Bool) (op : OpCode) (len dstLen : Nat) :
    (len < 126 →
      (dstLen < 2 → headerWrite fin op len dstLen = none) ∧
      (2 ≤ dstLen → headerWrite fin op len dstLen =
        some (((if fin then 1 else 0) <<< 7 ||| op.val) :: [len]) ∧
        ∀ l, headerWrite fin op len dstLen = some l → l.length = 2)) ∧
    (126 ≤ len → len < 65536 →
      (dstLen < 4 → headerWrite fin op len dstLen = none) ∧
      (4 ≤ dstLen → headerWrite fin op len dstLen =
        some (((if fin then 1 else 0) <<< 7 ||| op.val) :: 126 :: beBytes 2 len) ∧
        ∀ l, headerWrite fin op len dstLen = some l → l.length = 4)) ∧
    (65536 ≤ len →
      (dstLen < 10 → headerWrite fin op len dstLen = none) ∧
      (10 ≤ dstLen → headerWrite fin op len dstLen =
        some (((if fin then 1 else 0) <<< 7 ||| op.val) :: 127 :: beBytes 8 len) ∧
        ∀ l, headerWrite fin op len dstLen = some l → l.length = 10)) := by
  refine ⟨fun h1 => ⟨fun h2 => ?_, fun h2 => ⟨?_, ?_⟩⟩,
          fun h1 h1' => ⟨fun h2 => ?_, fun h2 => ⟨?_, ?_⟩⟩,
          fun h1 => ⟨fun h2 => ?_, fun h2 => ⟨?_, ?_⟩⟩⟩ <;>
    simp only [headerWrite, beBytes] <;> split_ifs <;>
      first
        | rfl
        | omega
        | (intro l hl; simp only [Option.some.injEq] at hl; subst hl; rfl)
        | (norm_num [pow_succ]; try omega)

/-- Claim C9 witness: a 130000-byte payload takes the 10-byte header with
length code 127 and the 8-byte big-endian extended length. -/
theorem headerWrite_shortest_witness :
    headerWrite true OpCode.Binary 130000 16 =
      some [130, 127, 0, 0, 0, 0, 0, 1, 251, 208] := by
  have h := (headerWrite_shortest true OpCode.Binary 130000 16).2.2 (by norm_num)
  have h2 := (h.2 (by norm_num)).1
  rw [h2]; rfl

/-- Helper: the allowed-to-send partition of close codes, characterized
numerically. -/
theorem from_u16_is_allowed_iff (c : Nat) :
    (CloseCode.from_u16 c).is_allowed = true ↔
      (c = 1000 ∨ c = 1001 ∨ c = 1002 ∨ c = 1003 ∨ (1007 ≤ c ∧ c ≤ 1013) ∨
       (3000 ≤ c ∧ c ≤ 4999)) := by
  rw [CloseCode.from_u16]
  by_cases h1 : c = 1000
  · rw [if_pos h1]; simp [CloseCode.is_allowed]; omega
  rw [if_neg h1]
  by_cases h2 : c = 1001
  · rw [if_pos h2]; simp [CloseCode.is_allowed]; omega
  rw [if_neg h2]
  by_cases h3 : c = 1002
  · rw [if_pos h3]; simp [CloseCode.is_allowed]; omega
  rw [if_neg h3]
  by_cases h4 : c = 1003
  · rw [if_pos h4]; simp [CloseCode.is_allowed]; omega
  rw [if_neg h4]
  by_cases h5 : c = 1005
  · rw [if_pos h5]; simp [CloseCode.is_allowed]; omega
  rw [if_neg h5]
  by_cases h6 : c = 1006
  · rw [if_pos h6]; simp [CloseCode.is_allowed]; omega
  rw [if_neg h6]
  by_cases h7 : c = 1007
  · rw [if_pos h7]; simp [CloseCode.is_allowed]; omega
  rw [if_neg h7]
  by_cases h8 : c = 1008
  · rw [if_pos h8]; simp [CloseCode.is_allowed]; omega
  rw [if_neg h8]
  by_cases h9 : c = 1009
  · rw [if_pos h9]; simp [CloseCode.is_allowed]; omega
  rw [if_neg h9]
  by_cases h10 : c = 1010
  · rw [if_pos h10]; simp [CloseCode.is_allowed]; omega
  rw [if_neg h10]
  by_cases h11 : c = 1011
  · rw [if_pos h11]; simp [CloseCode.is_allowed]; omega
  rw [if_neg h11]
  by_cases h12 : c = 1012
  · rw [if_pos h12]; simp [CloseCode.is_allowed]; omega
  rw [if_neg h12]
  by_cases h13 : c = 1013
  · rw [if_pos h13]; simp [CloseCode.is_allowed]; omega
  rw [if_neg h13]
  by_cases h14 : c = 1015
  · rw [if_pos h14]; simp [CloseCode.is_allowed]; omega
  rw [if_neg h14]
  by_cases h15 : 1 ≤ c ∧ c ≤ 999
  · rw [if_pos h15]; simp [CloseCode.is_allowed]; omega
  rw [if_neg h15]
  by_cases h16 : 1016 ≤ c ∧ c ≤ 2999
  · rw [if_pos h16]; simp [CloseCode.is_allowed]; omega
  rw [if_neg h16]
  by_cases h17 : 3000 ≤ c ∧ c ≤ 3999
  · rw [if_pos h17]; simp [CloseCode.is_allowed]; omega
  rw [if_neg h17]
  by_cases h18 : 4000 ≤ c ∧ c ≤ 4999
  · rw [if_pos h18]; simp [CloseCode.is_allowed]; omega
  rw [if_neg h18]; simp [CloseCode.is_allowed]; omega

/-- Claim C3: parsing a received Close frame payload: 0 bytes gives Close
with no close frame; 1 byte fails invalid-close-frame; at least 2 bytes
takes the big-endian code from bytes 0-1 and the reason from the rest,
failing invalid-close-code when the code is not allowed to be sent and
invalid-utf8 when the reason is not valid UTF-8; the allowed partition is
exactly {1000, 1001, 1002, 1003} together with 1007..1013 and 3000..4999
(so 1005, 1006, 1015, codes below 1000, 1004, 1014, and 1016..2999 are all
excluded). -/
theorem extractCloseFrame_spec (payload : List Nat) :
    (payload.length = 0 → extractCloseFrame payload = .ok none) ∧
    (payload.length = 1 → extractCloseFrame payload = .error .InvalidCloseFrame) ∧
    (2 ≤ payload.length →
      ((CloseCode.from_u16 (256 * payload.getD 0 0 + payload.getD 1 0)).is_allowed = false →
        extractCloseFrame payload =
          .error (.InvalidCloseCode
            (CloseCode.from_u16 (256 * payload.getD 0 0 + payload.getD 1 0)))) ∧
      ((CloseCode.from_u16 (256 * payload.getD 0 0 + payload.getD 1 0)).is_allowed = true →
        (validUtf8 (payload.drop 2) = true →
          extractCloseFrame payload =
            .ok (some { code := CloseCode.from_u16 (256 * payload.getD 0 0 + payload.getD 1 0),
                        reason := payload.drop 2 })) ∧
        (validUtf8 (payload.drop 2) = false →
          extractCloseFrame payload = .error .InvalidUTF8))) ∧
    (∀ c : Nat, (CloseCode.from_u16 c).is_allowed = true ↔
      (c = 1000 ∨ c = 1001 ∨ c = 1002 ∨ c = 1003 ∨ (1007 ≤ c ∧ c ≤ 1013) ∨
       (3000 ≤ c ∧ c ≤ 4999))) := by
  refine ⟨fun h => ?_, fun h => ?_, fun h => ⟨fun hc => ?_, fun hc => ⟨fun hu => ?_, fun hu => ?_⟩⟩,
          fun c => ?_⟩
  · simp [extractCloseFrame, h]
  · simp [extractCloseFrame, h]
  · simp only [extractCloseFrame]
    rw [if_neg (by omega), if_neg (by omega), if_pos (by rw [hc]; rfl)]
  · simp only [extractCloseFrame]
    rw [if_neg (by omega), if_neg (by omega), if_neg (by rw [hc]; decide), if_pos hu]
  · simp only [extractCloseFrame]
    rw [if_neg (by omega), if_neg (by omega), if_neg (by rw [hc]; decide), if_neg (by rw [hu]; decide)]
  · exact from_u16_is_allowed_iff c

/-- Claim C3 witness: the 2-byte payload 0x03 0xE8 (code 1000, empty
reason) parses as Close code Normal with empty reason. -/
theorem extractCloseFrame_spec_witness :
    extractCloseFrame [0x03, 0xE8] =
      .ok (some { code := .Normal, reason := [] }) := by
  have h := (((extractCloseFrame_spec [0x03, 0xE8]).2.2.1 (by decide)).2 (by decide)).1 (by decide)
  simpa using h

/-- Claim C1 counterexample: a Text frame with fin=false delivered while a
fragmented message is already in progress does NOT fail invalid-fragment;
the reassembler silently restarts the fragments buffer with the new
frame's payload. -/
theorem onFrame_finFalse_counterexample :
    onFrame { fragmented := some { opcode := .Text, index := 1 }, buffer := [0, 0, 0, 0] }
        { fin := false, opcode := .Text, payload := [66] } =
      (.ok none, { fragmented := some { opcode := .Text, index := 1 }, buffer := [66, 0, 0, 0] }) ∧
    (onFrame { fragmented := some { opcode := .Text, index := 1 }, buffer := [0, 0, 0, 0] }
        { fin := false, opcode := .Text, payload := [66] }).1 ≠
      .error (.Protocol .InvalidFragment) := by
  constructor <;> decide

/-- Claim C1 amended: for every Text or Binary frame with fin=false —
whether or not a fragmented message is in progress — the reassembler
copies the payload into the fragments buffer at offset 0 and records
(opcode, bytes-written), failing fragments-buffer-too-small if the
payload does not fit; the invalid-fragment failure occurs only for
fin=true data frames while a fragment is in progress. -/
theorem onFrame_data_not_final (fs : FragState) (frame : Frame)
    (hop : frame.opcode = .Text ∨ frame.opcode = .Binary) (hfin : frame.fin = false) :
    (fs.buffer.length < frame.payload.length →
      onFrame fs frame = (.error .FragmentsBufferTooSmall, fs)) ∧
    (frame.payload.length ≤ fs.buffer.length →
      onFrame fs frame =
        (.ok none,
         { fragmented := some { opcode := frame.opcode, index := frame.payload.length },
           buffer := frame.payload ++ fs.buffer.drop frame.payload.length })) := by
  obtain ⟨fin, op, payload⟩ := frame
  simp only at hfin
  subst hfin
  rcases hop with hop | hop <;> simp only at hop <;> subst hop <;>
    refine ⟨fun h => ?_, fun h => ?_⟩ <;> dsimp only at h ⊢ <;>
      simp [onFrame, writeAt] <;> omega

/-- Claim C1 witness (amended form): a first fin=false Binary frame copies
its payload to offset 0 and records (Binary, 1). -/
theorem onFrame_data_not_final_witness :
    onFrame { fragmented := none, buffer := [0, 0] }
        { fin := false, opcode := .Binary, payload := [7] } =
      (.ok none, { fragmented := some { opcode := .Binary, index := 1 }, buffer := [7, 0] }) := by
  have h := (onFrame_data_not_final { fragmented := none, buffer := [0, 0] }
    { fin := false, opcode := .Binary, payload := [7] } (Or.inr rfl) rfl).2 (by decide)
  simpa using h

/-- Helper: the fragment iterator is exhausted once `pos` has reached the
end of the data. -/
theorem iterFragments_nil (fuel : Nat) (data : List Nat) (op : OpCode) (k pos : Nat)
    (h : data.length ≤ pos) : iterFragments fuel data op k pos = [] := by
  cases fuel with
  | zero => rfl
  | succ n => simp only [iterFragments]; rw [if_pos h]

/-- Helper: the fragment iterator, started anywhere strictly inside the
data with positive fragment size and enough fuel, concatenates back to
the remaining data, labels the first frame with the message opcode (at
position 0) or Continuation, labels every later frame Continuation, and
sets fin exactly on the last frame. -/
theorem iterFragments_spec (k : Nat) (hk : 1 ≤ k) (data : List Nat) (op : OpCode) :
    ∀ fuel pos, pos < data.length → data.length ≤ fuel + pos →
      ((iterFragments fuel data op k pos).map Frame.payload).flatten = data.drop pos ∧
      iterFragments fuel data op k pos ≠ [] ∧
      ((iterFragments fuel data op k pos).head?.map Frame.opcode =
        some (if pos = 0 then op else .Continuation)) ∧
      (∀ f ∈ (iterFragments fuel data op k pos).tail, f.opcode = .Continuation) ∧
      (∀ f ∈ (iterFragments fuel data op k pos).dropLast, f.fin = false) ∧
      ((iterFragments fuel data op k pos).getLast?.map Frame.fin = some true) := by
  intro fuel
  induction fuel with
  | zero => intro pos h1 h2; omega
  | succ n ih =>
    intro pos h1 h2
    have hnotle : ¬ data.length ≤ pos := by omega
    simp only [iterFragments]
    rw [if_neg hnotle]
    by_cases hend : min (pos + k) data.length = data.length
    · rw [iterFragments_nil n data op k _ (le_of_eq hend.symm)]
      have htake : (data.drop pos).take (min (pos + k) data.length - pos) = data.drop pos := by
        apply List.take_of_length_le
        rw [List.length_drop]
        omega
      refine ⟨?_, by simp, ?_, by simp, by simp, ?_⟩
      · simp [htake]
      · simp
      · simp [hend]
    · have hee : min (pos + k) data.length < data.length :=
        lt_of_le_of_ne (min_le_right _ _) hend
      have hpos : pos < min (pos + k) data.length := lt_min (by omega) h1
      obtain ⟨ih1, ih2, ih3, ih4, ih5, ih6⟩ := ih (min (pos + k) data.length) hee (by omega)
      obtain ⟨hd, tl, heq⟩ := List.exists_cons_of_ne_nil ih2
      refine ⟨?_, by simp, ?_, ?_, ?_, ?_⟩
      · have hdrop : (data.drop pos).drop (min (pos + k) data.length - pos) =
            data.drop (min (pos + k) data.length) := by
          rw [List.drop_drop]
          congr 1
          omega
        simp only [List.map_cons, List.flatten_cons, ih1]
        rw [← hdrop, List.take_append_drop]
      · simp
      · intro f hf
        simp only [List.tail_cons] at hf
        rw [heq] at hf ih3 ih4
        rcases List.mem_cons.mp hf with hf | hf
        · subst hf
          simp only [List.head?_cons, Option.map_some] at ih3
          have : ¬ min (pos + k) data.length = 0 := by omega
          rw [if_neg this] at ih3
          exact Option.some.inj ih3
        · exact ih4 f (by simpa using hf)
      · intro f hf
        rw [heq] at hf ih5
        rw [List.dropLast_cons₂] at hf
        rcases List.mem_cons.mp hf with hf | hf
        · subst hf
          simp only
          simp [Nat.ne_of_lt hee]
        · exact ih5 f hf
      · rw [heq] at ih6 ⊢
        rw [List.getLast?_cons_cons]
        exact ih6

/-- Helper: a fragment size at least the payload length produces a single
final frame carrying the whole payload. -/
theorem fragmentsIterator_single (op : OpCode) (data : List Nat) (k : Nat)
    (h : data.length ≤ k) : fragmentsIterator op data k = [Frame.mk true op data] := by
  by_cases hd : data.length = 0
  · have : data = [] := List.length_eq_zero.mp hd
    subst this
    rfl
  · unfold fragmentsIterator
    rw [if_neg hd]
    obtain ⟨n, hn⟩ := Nat.exists_eq_succ_of_ne_zero hd
    rw [hn]
    simp only [iterFragments]
    rw [if_neg (by omega)]
    rw [iterFragments_nil n data op k _ (by simp [Nat.min_eq_right h])]
    simp [Nat.min_eq_right h, List.take_of_length_le (le_refl data.length)]

/-- Claim C5: for every data message (Text or Binary) with payload of
length L and every fragment size K ≥ 1, the fragmenter produces a finite
frame list whose payloads concatenate to the message payload, whose first
frame carries the message opcode, whose later frames carry Continuation,
and in which exactly the last frame has fin=true; an empty payload gives
exactly one final frame with empty payload, and K ≥ L gives exactly one
frame. -/
theorem message_fragments_spec (m : Message) (payload : List Nat) (k : Nat)
    (hk : 1 ≤ k) (hm : m = .Text payload ∨ m = .Binary payload) :
    ∃ frames, m.fragments k = .ok frames ∧
      (frames.map Frame.payload).flatten = payload ∧
      frames.head?.map Frame.opcode = some m.opcode ∧
      (∀ f ∈ frames.tail, f.opcode = .Continuation) ∧
      (∀ f ∈ frames.dropLast, f.fin = false) ∧
      frames.getLast?.map Frame.fin = some true ∧
      (payload = [] → frames = [Frame.mk true m.opcode []]) ∧
      (payload.length ≤ k → frames = [Frame.mk true m.opcode payload]) := by
  have main : ∀ op : OpCode,
      ((fragmentsIterator op payload k).map Frame.payload).flatten = payload ∧
      (fragmentsIterator op payload k).head?.map Frame.opcode = some op ∧
      (∀ f ∈ (fragmentsIterator op payload k).tail, f.opcode = .Continuation) ∧
      (∀ f ∈ (fragmentsIterator op payload k).dropLast, f.fin = false) ∧
      (fragmentsIterator op payload k).getLast?.map Frame.fin = some true ∧
      (payload = [] → fragmentsIterator op payload k = [Frame.mk true op []]) ∧
      (payload.length ≤ k → fragmentsIterator op payload k = [Frame.mk true op payload]) := by
    intro op
    by_cases hp : payload.length = 0
    · have : payload = [] := List.length_eq_zero.mp hp
      subst this
      refine ⟨by rfl, by rfl, by simp [fragmentsIterator], by simp [fragmentsIterator],
              by rfl, fun _ => rfl, fun _ => rfl⟩
    · have h1 : (0 : Nat) < payload.length := by omega
      obtain ⟨s1, _, s3, s4, s5, s6⟩ :=
        iterFragments_spec k hk payload op payload.length 0 h1 (by omega)
      have hit : fragmentsIterator op payload k =
          iterFragments payload.length payload op k 0 := by
        unfold fragmentsIterator
        rw [if_neg hp]
      refine ⟨?_, ?_, ?_, ?_, ?_, fun h => absurd h (by intro h; subst h; exact hp rfl), ?_⟩
      · rw [hit, s1]; rfl
      · rw [hit, s3]; rfl
      · rw [hit]; exact s4
      · rw [hit]; exact s5
      · rw [hit]; exact s6
      · intro hlek
        exact fragmentsIterator_single op payload k hlek
  rcases hm with hm | hm <;> subst hm
  · refine ⟨fragmentsIterator .Text payload k, ?_, main .Text⟩
    simp only [Message.fragments]
    rw [if_neg (by omega)]
  · refine ⟨fragmentsIterator .Binary payload k, ?_, main .Binary⟩
    simp only [Message.fragments]
    rw [if_neg (by omega)]

/-- Claim C5 witness: Binary [1, 2, 3] fragmented at size 2 satisfies all
the fragmentation properties. -/
theorem message_fragments_spec_witness :
    ∃ frames, (Message.Binary [1, 2, 3]).fragments 2 = .ok frames ∧
      (frames.map Frame.payload).flatten = [1, 2, 3] ∧
      frames.head?.map Frame.opcode = some (Message.Binary [1, 2, 3]).opcode ∧
      (∀ f ∈ frames.tail, f.opcode = .Continuation) ∧
      (∀ f ∈ frames.dropLast, f.fin = false) ∧
      frames.getLast?.map Frame.fin = some true ∧
      ([1, 2, 3] = ([] : List Nat) → frames = [Frame.mk true (Message.Binary [1, 2, 3]).opcode []]) ∧
      (([1, 2, 3] : List Nat).length ≤ 2 →
        frames = [Frame.mk true (Message.Binary [1, 2, 3]).opcode [1, 2, 3]]) :=
  message_fragments_spec (Message.Binary [1, 2, 3]) [1, 2, 3] 2 (by decide) (Or.inr rfl)

/-- Claim C6: with auto-pong enabled, a decoded Ping makes the connection
send a Pong with the same payload and return Ok(None) (the read loop
continues, the Ping is not surfaced); with auto-close enabled, a decoded
Close on a not-yet-closed connection parses the close frame (propagating
its parse errors), sends back a Close with the same code and reason — or
Close(Normal = 1000, empty reason) if the frame had none — marks the
connection closed and returns end-of-stream (None). -/
theorem readAuto_spec (st : ConnectionState) (fs : FragState) (frame : Frame) :
    (st.auto.pong = true → frame.opcode = .Ping →
      readAutoCall st fs frame =
        { sent := some (.Pong frame.payload), result := some (.ok none),
          state := { st with closed := false }, frag := fs }) ∧
    (st.auto.close = true → st.closed = false → frame.opcode = .Close →
      (∀ e, extractCloseFrame frame.payload = .error e →
        readAutoCall st fs frame =
          { sent := none, result := some (.error (.Read (.Protocol e))),
            state := st, frag := fs }) ∧
      (∀ cf, extractCloseFrame frame.payload = .ok (some cf) →
        readAutoCall st fs frame =
          { sent := some (.Close (some cf)), result := none,
            state := { st with closed := true }, frag := fs }) ∧
      (extractCloseFrame frame.payload = .ok none →
        readAutoCall st fs frame =
          { sent := some (.Close (some (CloseFrame.no_reason .Normal))), result := none,
            state := { st with closed := true }, frag := fs })) := by
  constructor
  · intro hp hop
    simp [readAutoCall, auto, hp, hop, Message.is_close]
  · intro hc hcl hop
    have hnotping : (frame.opcode == OpCode.Ping) = false := by rw [hop]; rfl
    have hisclose : (frame.opcode == OpCode.Close) = true := by rw [hop]; rfl
    refine ⟨fun e he => ?_, fun cf hcf => ?_, fun hn => ?_⟩
    · simp [readAutoCall, auto, hc, hcl, hnotping, hisclose, he, Message.is_close]
    · simp [readAutoCall, auto, hc, hcl, hnotping, hisclose, hcf, Message.is_close]
    · simp [readAutoCall, auto, hc, hcl, hnotping, hisclose, hn, Message.is_close]

/-- Claim C6 witness: a Ping with payload [1] under auto-pong answers
Pong [1] and continues the loop. -/
theorem readAuto_spec_witness :
    readAutoCall { closed := false, auto := { pong := true, close := true } }
        { fragmented := none, buffer := [] }
        { fin := true, opcode := .Ping, payload := [1] } =
      { sent := some (.Pong [1]), result := some (.ok none),
        state := { closed := false, auto := { pong := true, close := true } },
        frag := { fragmented := none, buffer := [] } } :=
  (readAuto_spec { closed := false, auto := { pong := true, close := true } }
    { fragmented := none, buffer := [] }
    { fin := true, opcode := .Ping, payload := [1] }).1 rfl rfl

/-- Claim C7 counterexample: with auto-close disabled, receiving a Close
frame surfaces Close to the caller but does NOT flip the closed flag, and
a subsequent send succeeds — so the flag does not flip on every first
Close received. -/
theorem closedFlag_counterexample :
    (readAutoCall { closed := false, auto := { pong := true, close := false } }
        { fragmented := none, buffer := [] }
        { fin := true, opcode := .Close, payload := [] }).result =
      some (.ok (some (.Close none))) ∧
    (readAutoCall { closed := false, auto := { pong := true, close := false } }
        { fragmented := none, buffer := [] }
        { fin := true, opcode := .Close, payload := [] }).state.closed = false ∧
    (send (readAutoCall { closed := false, auto := { pong := true, close := false } }
        { fragmented := none, buffer := [] }
        { fin := true, opcode := .Close, payload := [] }).state
      (.Text [])).result = .ok () := by
  refine ⟨?_, ?_, ?_⟩ <;> rfl

/-- Claim C7 amended: the closed flag flips to true on the first Close
frame sent, and on the first (well-formed) Close frame received while
auto-close is enabled; once the connection is marked closed, every
subsequent send and send_fragmented call returns the connection-closed
error without writing anything; sending a non-Close message never sets
the closed flag. -/
theorem closedFlag_spec (st : ConnectionState) (m : Message) (k : Nat)
    (fs : FragState) (frame : Frame) :
    (st.closed = true →
      send st m = { result := .error (.Write .ConnectionClosed), written := [], state := st } ∧
      sendFragmented st m k =
        { result := .error (.Write .ConnectionClosed), written := [], state := st }) ∧
    (st.closed = false → (send st m).state.closed = m.is_close) ∧
    (st.closed = false → m.is_close = false → (send st m).state.closed = false) ∧
    (st.closed = false → st.auto.close = true → frame.opcode = .Close →
      ∀ r, extractCloseFrame frame.payload = .ok r →
        (readAutoCall st fs frame).state.closed = true) := by
  refine ⟨fun h => ⟨?_, ?_⟩, fun h => ?_, fun h hm => ?_, fun h hc hop r hr => ?_⟩
  · simp [send, h]
  · simp [sendFragmented, h]
  · simp [send, h]
  · simp [send, h, hm]
  · have hnotping : (frame.opcode == OpCode.Ping) = false := by rw [hop]; rfl
    have hisclose : (frame.opcode == OpCode.Close) = true := by rw [hop]; rfl
    cases r <;> simp [readAutoCall, auto, h, hc, hnotping, hisclose, hr, Message.is_close]

/-- Claim C7 witness: on a closed connection, send returns
connection-closed and writes nothing. -/
theorem closedFlag_spec_witness :
    send { closed := true, auto := { pong := true, close := true } } (.Text [5]) =
      { result := .error (.Write .ConnectionClosed), written := [],
        state := { closed := true, auto := { pong := true, close := true } } } :=
  ((closedFlag_spec { closed := true, auto := { pong := true, close := true } }
    (.Text [5]) 1 { fragmented := none, buffer := [] }
    { fin := true, opcode := .Close, payload := [] }).1 rfl).1

/-! ## Codec helper lemmas -/

theorem unmaskBytes_length (key : List Nat) : ∀ i l, (unmaskBytes key i l).length = l.length := by
  intro i l
  induction l generalizing i with
  | nil => rfl
  | cons b bs ih => simp [unmaskBytes, ih]

theorem unmaskBytes_involutive (key : List Nat) :
    ∀ i l, unmaskBytes key i (unmaskBytes key i l) = l := by
  intro i l
  induction l generalizing i with
  | nil => rfl
  | cons b bs ih => simp [unmaskBytes, ih, Nat.xor_cancel_right]

theorem b0_rsv (fin : Bool) (op : OpCode) :
    ((((if fin then 1 else 0) <<< 7) ||| op.val) &&& 0x40 != 0 ||
     ((((if fin then 1 else 0) <<< 7) ||| op.val) &&& 0x20 != 0 ||
      (((if fin then 1 else 0) <<< 7) ||| op.val) &&& 0x10 != 0)) = false := by
  cases fin <;> cases op <;> decide

theorem b0_opcode (fin : Bool) (op : OpCode) :
    OpCode.ofNat? ((((if fin then 1 else 0) <<< 7) ||| op.val) &&& 0x0F) = some op := by
  cases fin <;> cases op <;> decide

theorem b0_fin (fin : Bool) (op : OpCode) :
    (((((if fin then 1 else 0) <<< 7) ||| op.val) &&& 0x80) != 0) = fin := by
  cases fin <;> cases op <;> decide

theorem small_and_128 (n : Nat) (h : n < 128) : n &&& 128 = 0 := by
  have h2 := Nat.and_two_pow n 7
  norm_num at h2
  rw [h2]
  have : n.testBit 7 = false := by
    apply Nat.testBit_lt_two_pow
    norm_num
    omega
  simp [this]

theorem and_127_eq_mod (n : Nat) : n &&& 127 = n % 128 := by
  simpa using Nat.and_pow_two_sub_one_eq_mod n 7

theorem lb_unmasked (n : Nat) (h : n < 128) : ((n &&& 128) != 0) = false := by
  simp [small_and_128 n h]

theorem or_128_ne_zero (n : Nat) : ¬ (n ||| 128 = 0) := by
  intro h
  have h2 := congrArg (fun m => m.testBit 7) h
  simp only [Nat.testBit_or] at h2
  rw [show Nat.testBit 128 7 = true from by decide,
      show Nat.testBit 0 7 = false from by decide] at h2
  simp at h2

theorem lb_masked (n : Nat) : (((n ||| 128) &&& 128) != 0) = true := by
  rw [Nat.and_distrib_right]
  rw [show (128 &&& 128 : Nat) = 128 from rfl]
  simp [or_128_ne_zero]

theorem lb_code (n : Nat) (h : n < 128) : lengthCodeOf n = n := by
  simp only [lengthCodeOf]
  rw [show (0x7F : Nat) = 127 from rfl, and_127_eq_mod, Nat.mod_eq_of_lt h]

theorem lb_code_masked (n : Nat) (h : n < 128) : lengthCodeOf (n ||| 128) = n := by
  simp only [lengthCodeOf]
  rw [show (0x7F : Nat) = 127 from rfl, Nat.and_distrib_right, and_127_eq_mod,
    Nat.mod_eq_of_lt h, show (128 &&& 127 : Nat) = 0 from rfl, Nat.or_zero]

theorem decodePhase1_unmasked (u m : Bool) (fin : Bool) (op : OpCode) (lb : Nat)
    (rest : List Nat) (hlb : lb < 128) (hns : (u && !m) = false) :
    decodePhase1 u m ((((if fin then 1 else 0) <<< 7) ||| op.val) :: lb :: rest) =
      .ok (some { fin := fin, opcode := op, masked := false, length_code := lb,
                  extra := extraOf lb, min_src_len := 2 + extraOf lb }) := by
  simp only [decodePhase1]
  rw [if_neg (by simp)]
  simp [List.getD_cons_zero, List.getD_cons_succ, b0_rsv, b0_opcode, b0_fin,
    lb_unmasked lb hlb, lb_code lb hlb, hns]
  cases fin <;> cases op <;> decide

theorem decodePhase1_masked (u m : Bool) (fin : Bool) (op : OpCode) (lb : Nat)
    (rest : List Nat) (hlb : lb < 128) (hnc : (m && !u) = false) :
    decodePhase1 u m ((((if fin then 1 else 0) <<< 7) ||| op.val) :: (lb ||| 128) :: rest) =
      .ok (some { fin := fin, opcode := op, masked := true, length_code := lb,
                  extra := extraOf lb, min_src_len := 2 + extraOf lb + 4 }) := by
  simp only [decodePhase1]
  rw [if_neg (by simp)]
  simp [List.getD_cons_zero, List.getD_cons_succ, b0_rsv, b0_opcode, b0_fin,
    lb_masked, lb_code_masked lb hlb, hnc]
  cases fin <;> cases op <;> decide

theorem decodePhase2_ok (src : List Nat) (st : HeaderState)
    (hsrc : st.min_src_len ≤ src.length)
    (hctl : st.opcode.is_control = true →
      st.fin = true ∧ payloadLenOf src st.length_code st.extra ≤ 125) :
    decodePhase2 src st =
      .ok (some { fin := st.fin, opcode := st.opcode,
                  mask := (if st.masked then
                      some [src.getD (2 + st.extra) 0, src.getD (3 + st.extra) 0,
                            src.getD (4 + st.extra) 0, src.getD (5 + st.extra) 0]
                    else none),
                  payload_len := payloadLenOf src st.length_code st.extra,
                  min_src_len :=
                    st.min_src_len + payloadLenOf src st.length_code st.extra }) := by
  simp only [decodePhase2]
  rw [if_neg (by omega)]
  cases hc : st.opcode.is_control with
  | false => simp [hc]
  | true =>
    obtain ⟨h1, h2⟩ := hctl hc
    rw [h1]
    simp [hc, Nat.not_lt.mpr h2]

theorem decodePhase3_ok (u m : Bool) (st : PayloadState) (pre tail : List Nat)
    (hpre : pre.length = st.min_src_len - st.payload_len)
    (htail : tail.length = st.payload_len)
    (htot : st.min_src_len = pre.length + tail.length) :
    decodePhase3 u m (pre ++ tail) st =
      some ({ fin := st.fin, opcode := st.opcode,
              payload := if (u && !m) = true then
                  match st.mask with
                  | some k => unmaskBytes k 0 tail
                  | none => tail
                else tail },
            st.min_src_len) := by
  simp only [decodePhase3]
  rw [if_neg (by simp [List.length_append]; omega)]
  have hdrop : (pre ++ tail).drop (st.min_src_len - st.payload_len) = tail := by
    rw [← hpre, List.drop_left]
  rw [hdrop]
  have htake : tail.take st.payload_len = tail := by
    rw [← htail, List.take_length]
  rw [htake]



theorem decode_encoded_plain (fin : Bool) (op : OpCode) (lb : Nat)
    (extraBytes payload : List Nat)
    (hlb : lb < 128) (hex : extraOf lb = extraBytes.length)
    (hpl : payloadLenOf ((((if fin then 1 else 0) <<< 7) ||| op.val) :: lb ::
        (extraBytes ++ payload)) lb (extraOf lb) = payload.length)
    (hctrl : op.is_control = true → fin = true ∧ payload.length ≤ 125) :
    decode false false ((((if fin then 1 else 0) <<< 7) ||| op.val) :: lb ::
        (extraBytes ++ payload)) =
      .ok (some (Frame.mk fin op payload, 2 + extraBytes.length + payload.length)) := by
  rw [hex] at hpl
  have h1 := decodePhase1_unmasked false false fin op lb (extraBytes ++ payload) hlb rfl
  rw [hex] at h1
  have h2 := decodePhase2_ok
    ((((if fin then 1 else 0) <<< 7) ||| op.val) :: lb :: (extraBytes ++ payload))
    { fin := fin, opcode := op, masked := false, length_code := lb,
      extra := extraBytes.length, min_src_len := 2 + extraBytes.length }
    (by simp; omega)
    (by intro hc; obtain ⟨hf, hp⟩ := hctrl hc; exact ⟨hf, by rw [hpl]; exact hp⟩)
  rw [hpl] at h2
  simp only [Bool.false_eq_true, if_false] at h2
  have h3 := decodePhase3_ok false false
    { fin := fin, opcode := op, mask := none, payload_len := payload.length,
      min_src_len := 2 + extraBytes.length + payload.length }
    ((((if fin then 1 else 0) <<< 7) ||| op.val) :: lb :: extraBytes) payload
    (by simp; omega) rfl (by simp; omega)
  simp only [List.cons_append] at h3
  simp only [Bool.false_and, Bool.false_eq_true, if_false] at h3
  simp only [decode, h1, h2, h3]

theorem getD_cons2 (a b : Nat) (l : List Nat) (n : Nat) :
    (a :: b :: l).getD (2 + n) 0 = l.getD n 0 := by
  have h : 2 + n = n + 1 + 1 := by omega
  rw [h, List.getD_cons_succ, List.getD_cons_succ]

theorem decode_encoded_masked (fin : Bool) (op : OpCode) (lb : Nat)
    (extraBytes key payload : List Nat)
    (hlb : lb < 128) (hex : extraOf lb = extraBytes.length)
    (hkey : key.length = 4)
    (hpl : payloadLenOf ((((if fin then 1 else 0) <<< 7) ||| op.val) :: (lb ||| 128) ::
        (extraBytes ++ (key ++ unmaskBytes key 0 payload))) lb (extraOf lb) = payload.length)
    (hctrl : op.is_control = true → fin = true ∧ payload.length ≤ 125) :
    decode true false ((((if fin then 1 else 0) <<< 7) ||| op.val) :: (lb ||| 128) ::
        (extraBytes ++ (key ++ unmaskBytes key 0 payload))) =
      .ok (some (Frame.mk fin op payload,
        2 + extraBytes.length + 4 + payload.length)) := by
  rcases key with _ | ⟨k0, _ | ⟨k1, _ | ⟨k2, _ | ⟨k3, _ | ⟨k4, ks⟩⟩⟩⟩⟩ <;>
    simp only [List.length_cons, List.length_nil] at hkey <;> try omega
  rw [hex] at hpl
  have h1 := decodePhase1_masked true false fin op lb
    (extraBytes ++ ([k0, k1, k2, k3] ++ unmaskBytes [k0, k1, k2, k3] 0 payload)) hlb rfl
  rw [hex] at h1
  have hr0 : (extraBytes ++ ([k0, k1, k2, k3] ++ unmaskBytes [k0, k1, k2, k3] 0 payload)).getD
      extraBytes.length 0 = k0 := by
    rw [List.getD_append_right _ _ _ _ (le_refl _), Nat.sub_self]
    rfl
  have hr1 : (extraBytes ++ ([k0, k1, k2, k3] ++ unmaskBytes [k0, k1, k2, k3] 0 payload)).getD
      (extraBytes.length + 1) 0 = k1 := by
    rw [List.getD_append_right _ _ _ _ (by omega), Nat.add_sub_cancel_left]
    rfl
  have hr2 : (extraBytes ++ ([k0, k1, k2, k3] ++ unmaskBytes [k0, k1, k2, k3] 0 payload)).getD
      (extraBytes.length + 2) 0 = k2 := by
    rw [List.getD_append_right _ _ _ _ (by omega), Nat.add_sub_cancel_left]
    rfl
  have hr3 : (extraBytes ++ ([k0, k1, k2, k3] ++ unmaskBytes [k0, k1, k2, k3] 0 payload)).getD
      (extraBytes.length + 3) 0 = k3 := by
    rw [List.getD_append_right _ _ _ _ (by omega), Nat.add_sub_cancel_left]
    rfl
  have hi0 : (2 : Nat) + extraBytes.length = extraBytes.length + 1 + 1 := by omega
  have hi1 : (3 : Nat) + extraBytes.length = extraBytes.length + 1 + 1 + 1 := by omega
  have hi2 : (4 : Nat) + extraBytes.length = extraBytes.length + 2 + 1 + 1 := by omega
  have hi3 : (5 : Nat) + extraBytes.length = extraBytes.length + 3 + 1 + 1 := by omega
  have h2 : decodePhase2
      ((((if fin then 1 else 0) <<< 7) ||| op.val) :: (lb ||| 128) ::
        (extraBytes ++ ([k0, k1, k2, k3] ++ unmaskBytes [k0, k1, k2, k3] 0 payload)))
      { fin := fin, opcode := op, masked := true, length_code := lb,
        extra := extraBytes.length, min_src_len := 2 + extraBytes.length + 4 } =
      .ok (some { fin := fin, opcode := op, mask := some [k0, k1, k2, k3],
                  payload_len := payload.length,
                  min_src_len := 2 + extraBytes.length + 4 + payload.length }) := by
    rw [decodePhase2_ok _ _
      (by simp [unmaskBytes_length]; omega)
      (by intro hc; obtain ⟨hf, hp⟩ := hctrl hc; exact ⟨hf, by rw [hpl]; exact hp⟩)]
    simp only [hpl, hi0, hi1, hi2, hi3, List.getD_cons_succ, hr0, hr1, hr2, hr3]
    simp
  have h3 : decodePhase3 true false
      ((((if fin then 1 else 0) <<< 7) ||| op.val) :: (lb ||| 128) ::
        (extraBytes ++ ([k0, k1, k2, k3] ++ unmaskBytes [k0, k1, k2, k3] 0 payload)))
      { fin := fin, opcode := op, mask := some [k0, k1, k2, k3],
        payload_len := payload.length,
        min_src_len := 2 + extraBytes.length + 4 + payload.length } =
      some (Frame.mk fin op payload, 2 + extraBytes.length + 4 + payload.length) := by
    have := decodePhase3_ok true false
      { fin := fin, opcode := op, mask := some [k0, k1, k2, k3],
        payload_len := payload.length,
        min_src_len := 2 + extraBytes.length + 4 + payload.length }
      (((((if fin then 1 else 0) <<< 7) ||| op.val) :: (lb ||| 128) :: extraBytes) ++
        [k0, k1, k2, k3])
      (unmaskBytes [k0, k1, k2, k3] 0 payload)
      (by simp; omega)
      (by simp [unmaskBytes_length])
      (by simp [unmaskBytes_length]; omega)
    simp only [List.append_assoc, List.cons_append, List.nil_append] at this
    simp only [List.cons_append, List.nil_append]
    rw [this]
    simp [unmaskBytes_involutive]
  simp only [decode, h1, h2, h3]

theorem extraOf_small (n : Nat) (h : n < 126) : extraOf n = 0 := by
  unfold extraOf
  rw [if_neg (by omega), if_neg (by omega)]

/-- Claim C2: for every frame with a valid opcode (and, if control,
fin=true and payload at most 125 bytes), encoding with the frames codec
into a sufficiently large buffer and decoding the produced bytes yields
the same fin, opcode and payload, with the decoder's consumed count equal
to the number of bytes the encoder produced. With `b = false` this is the
unmasked endpoint pair; with `b = true` it is a client encoder (which
XOR-masks with the 4-byte key drawn from the RNG) paired with a server
decoder (whose in-place unmasking undoes it). -/
theorem encode_decode_roundtrip (b : Bool) (fin : Bool) (op : OpCode)
    (payload key : List Nat) (dstLen : Nat)
    (hkey : key.length = 4)
    (hctrl : op.is_control = true → fin = true ∧ payload.length ≤ 125)
    (hlen : payload.length < 2 ^ 64)
    (hdst : payload.length + 14 ≤ dstLen) :
    ∃ bytes, encodeInner false b key fin op payload dstLen = .ok bytes ∧
      decode b false bytes = .ok (some (Frame.mk fin op payload, bytes.length)) := by
  rcases Nat.lt_or_ge payload.length 126 with hsm | hge
  · -- inline length
    have hheader : headerWrite fin op payload.length dstLen =
        some [((if fin then 1 else 0) <<< 7) ||| op.val, payload.length] := by
      unfold headerWrite
      rw [if_neg (by omega), if_pos hsm]
    cases b
    · refine ⟨(((if fin then 1 else 0) <<< 7) ||| op.val) :: payload.length :: payload,
        ?_, ?_⟩
      · simp only [encodeInner, hheader]
        simp only [Bool.and_false, Bool.false_and, Bool.not_false, Bool.false_eq_true,
          if_false, List.length_cons, List.length_nil]
        rw [if_neg (by omega)]
        simp
      · have hthis := decode_encoded_plain fin op payload.length [] payload
          (by omega) (by simpa using extraOf_small payload.length hsm)
          (by rw [extraOf_small payload.length hsm]; rfl) hctrl
        have hlen2 : ((((if fin then 1 else 0) <<< 7) ||| op.val) ::
            payload.length :: payload).length =
            2 + ([] : List Nat).length + payload.length := by simp; omega
        rw [hlen2]
        exact hthis
    · refine ⟨(((if fin then 1 else 0) <<< 7) ||| op.val) :: (payload.length ||| 128) ::
        (key ++ unmaskBytes key 0 payload), ?_, ?_⟩
      · simp only [encodeInner, hheader]
        simp only [Bool.and_self, Bool.not_false, Bool.and_true, Bool.true_and, if_pos,
          List.length_cons, List.length_nil]
        rw [if_neg (by omega)]
        simp only [setMaskBit, List.length_cons, List.length_nil]
        rw [if_neg (by omega)]
        simp
      · have hthis := decode_encoded_masked fin op payload.length [] key payload
          (by omega) (by simpa using extraOf_small payload.length hsm) hkey
          (by rw [extraOf_small payload.length hsm]; rfl) hctrl
        have hlen2 : ((((if fin then 1 else 0) <<< 7) ||| op.val) ::
            (payload.length ||| 128) :: (key ++ unmaskBytes key 0 payload)).length =
            2 + ([] : List Nat).length + 4 + payload.length := by
          simp [unmaskBytes_length, hkey]
          omega
        rw [hlen2]
        exact hthis
  rcases Nat.lt_or_ge payload.length 65536 with hmid | hbig
  · -- 2-byte extended length
    have hheader : headerWrite fin op payload.length dstLen =
        some [((if fin then 1 else 0) <<< 7) ||| op.val, 126,
              payload.length / 256 % 256, payload.length % 256] := by
      unfold headerWrite
      rw [if_neg (by omega), if_neg (by omega), if_pos hmid, if_neg (by omega)]
    cases b
    · refine ⟨(((if fin then 1 else 0) <<< 7) ||| op.val) :: 126 ::
        ([payload.length / 256 % 256, payload.length % 256] ++ payload), ?_, ?_⟩
      · simp only [encodeInner, hheader]
        simp only [Bool.and_false, Bool.false_and, Bool.not_false, Bool.false_eq_true,
          if_false, List.length_cons, List.length_nil]
        rw [if_neg (by omega)]
        simp
      · have hthis := decode_encoded_plain fin op 126
          [payload.length / 256 % 256, payload.length % 256] payload
          (by omega) rfl
          (by simp [payloadLenOf, extraOf, List.getD]; omega) hctrl
        have hlen2 : ((((if fin then 1 else 0) <<< 7) ||| op.val) :: 126 ::
            ([payload.length / 256 % 256, payload.length % 256] ++ payload)).length =
            2 + [payload.length / 256 % 256, payload.length % 256].length +
              payload.length := by
          simp
          omega
        rw [hlen2]
        exact hthis
    · refine ⟨(((if fin then 1 else 0) <<< 7) ||| op.val) :: (126 ||| 128) ::
        ([payload.length / 256 % 256, payload.length % 256] ++
          (key ++ unmaskBytes key 0 payload)), ?_, ?_⟩
      · simp only [encodeInner, hheader]
        simp only [Bool.and_self, Bool.not_false, Bool.and_true, Bool.true_and, if_pos,
          List.length_cons, List.length_nil]
        rw [if_neg (by omega)]
        simp only [setMaskBit, List.length_cons, List.length_nil]
        rw [if_neg (by omega)]
        simp
      · have hthis := decode_encoded_masked fin op 126
          [payload.length / 256 % 256, payload.length % 256] key payload
          (by omega) rfl hkey
          (by simp [payloadLenOf, extraOf, List.getD]; omega) hctrl
        have hlen2 : ((((if fin then 1 else 0) <<< 7) ||| op.val) :: (126 ||| 128) ::
            ([payload.length / 256 % 256, payload.length % 256] ++
              (key ++ unmaskBytes key 0 payload))).length =
            2 + [payload.length / 256 % 256, payload.length % 256].length + 4 +
              payload.length := by
          simp [unmaskBytes_length, hkey]
          omega
        rw [hlen2]
        exact hthis
  · -- 8-byte extended length
    have hheader : headerWrite fin op payload.length dstLen =
        some [((if fin then 1 else 0) <<< 7) ||| op.val, 127,
              payload.length / 256 ^ 7 % 256, payload.length / 256 ^ 6 % 256,
              payload.length / 256 ^ 5 % 256, payload.length / 256 ^ 4 % 256,
              payload.length / 256 ^ 3 % 256, payload.length / 256 ^ 2 % 256,
              payload.length / 256 % 256, payload.length % 256] := by
      unfold headerWrite
      rw [if_neg (by omega), if_neg (by omega), if_neg (by omega), if_neg (by omega)]
    cases b
    · refine ⟨(((if fin then 1 else 0) <<< 7) ||| op.val) :: 127 ::
        ([payload.length / 256 ^ 7 % 256, payload.length / 256 ^ 6 % 256,
          payload.length / 256 ^ 5 % 256, payload.length / 256 ^ 4 % 256,
          payload.length / 256 ^ 3 % 256, payload.length / 256 ^ 2 % 256,
          payload.length / 256 % 256, payload.length % 256] ++ payload), ?_, ?_⟩
      · simp only [encodeInner, hheader]
        simp only [Bool.and_false, Bool.false_and, Bool.not_false, Bool.false_eq_true,
          if_false, List.length_cons, List.length_nil]
        rw [if_neg (by omega)]
        simp
      · have hthis := decode_encoded_plain fin op 127
          [payload.length / 256 ^ 7 % 256, payload.length / 256 ^ 6 % 256,
           payload.length / 256 ^ 5 % 256, payload.length / 256 ^ 4 % 256,
           payload.length / 256 ^ 3 % 256, payload.length / 256 ^ 2 % 256,
           payload.length / 256 % 256, payload.length % 256] payload
          (by omega) rfl
          (by simp [payloadLenOf, extraOf, List.getD]; omega) hctrl
        have hlen2 : ((((if fin then 1 else 0) <<< 7) ||| op.val) :: 127 ::
            ([payload.length / 256 ^ 7 % 256, payload.length / 256 ^ 6 % 256,
              payload.length / 256 ^ 5 % 256, payload.length / 256 ^ 4 % 256,
              payload.length / 256 ^ 3 % 256, payload.length / 256 ^ 2 % 256,
              payload.length / 256 % 256, payload.length % 256] ++ payload)).length =
            2 + [payload.length / 256 ^ 7 % 256, payload.length / 256 ^ 6 % 256,
              payload.length / 256 ^ 5 % 256, payload.length / 256 ^ 4 % 256,
              payload.length / 256 ^ 3 % 256, payload.length / 256 ^ 2 % 256,
              payload.length / 256 % 256, payload.length % 256].length + payload.length := by
          simp
          omega
        rw [hlen2]
        exact hthis
    · refine ⟨(((if fin then 1 else 0) <<< 7) ||| op.val) :: (127 ||| 128) ::
        ([payload.length / 256 ^ 7 % 256, payload.length / 256 ^ 6 % 256,
          payload.length / 256 ^ 5 % 256, payload.length / 256 ^ 4 % 256,
          payload.length / 256 ^ 3 % 256, payload.length / 256 ^ 2 % 256,
          payload.length / 256 % 256, payload.length % 256] ++
          (key ++ unmaskBytes key 0 payload)), ?_, ?_⟩
      · simp only [encodeInner, hheader]
        simp only [Bool.and_self, Bool.not_false, Bool.and_true, Bool.true_and, if_pos,
          List.length_cons, List.length_nil]
        rw [if_neg (by omega)]
        simp only [setMaskBit, List.length_cons, List.length_nil]
        rw [if_neg (by omega)]
        simp
      · have hthis := decode_encoded_masked fin op 127
          [payload.length / 256 ^ 7 % 256, payload.length / 256 ^ 6 % 256,
           payload.length / 256 ^ 5 % 256, payload.length / 256 ^ 4 % 256,
           payload.length / 256 ^ 3 % 256, payload.length / 256 ^ 2 % 256,
           payload.length / 256 % 256, payload.length % 256] key payload
          (by omega) rfl hkey
          (by simp [payloadLenOf, extraOf, List.getD]; omega) hctrl
        have hlen2 : ((((if fin then 1 else 0) <<< 7) ||| op.val) :: (127 ||| 128) ::
            ([payload.length / 256 ^ 7 % 256, payload.length / 256 ^ 6 % 256,
              payload.length / 256 ^ 5 % 256, payload.length / 256 ^ 4 % 256,
              payload.length / 256 ^ 3 % 256, payload.length / 256 ^ 2 % 256,
              payload.length / 256 % 256, payload.length % 256] ++
              (key ++ unmaskBytes key 0 payload))).length =
            2 + [payload.length / 256 ^ 7 % 256, payload.length / 256 ^ 6 % 256,
              payload.length / 256 ^ 5 % 256, payload.length / 256 ^ 4 % 256,
              payload.length / 256 ^ 3 % 256, payload.length / 256 ^ 2 % 256,
              payload.length / 256 % 256, payload.length % 256].length + 4 +
              payload.length := by
          simp [unmaskBytes_length, hkey]
          omega
        rw [hlen2]
        exact hthis

/-- Claim C2 witness: the Text frame "Hi" with the concrete mask key
12 34 56 78 round-trips through a client encoder and server decoder. -/
theorem encode_decode_roundtrip_witness :
    ∃ bytes, encodeInner false true [18, 52, 86, 120] true .Text [72, 105] 100 = .ok bytes ∧
      decode true false bytes =
        .ok (some (Frame.mk true .Text [72, 105], bytes.length)) :=
  encode_decode_roundtrip true true .Text [72, 105] [18, 52, 86, 120] 100
    (by decide) (by decide) (by decide) (by decide)


/-- Claim C8: the client handshake fails with missing-or-invalid-accept
unless the response carries a sec-websocket-accept header whose value
equals base64(SHA-1(key ++ "258EAFA5-E914-47DA-95CA-C5AB0DC85B11"))
computed from the Sec-WebSocket-Key the client sent; the derivation is a
deterministic function of the key, and for key
"dGhlIHNhbXBsZSBub25jZQ==" it yields "s3pPLMBiTxaQ9kYGzzhZRbK+xOo=". -/
theorem clientValidate_accept_spec :
    (∀ (resp : Response) (key : List Nat),
      resp.code = 101 → upgradeOk resp = true → connectionOk resp = true →
      ((clientValidate key resp = .ok ()) ↔
        headerValue resp.headers nameSecAccept = some (generateSecAccept key)) ∧
      (headerValue resp.headers nameSecAccept ≠ some (generateSecAccept key) →
        clientValidate key resp = .error .MissingOrInvalidAccept)) ∧
    (∀ k₁ k₂ : List Nat, k₁ = k₂ → generateSecAccept k₁ = generateSecAccept k₂) ∧
    generateSecAccept sampleKeyBytes = expectedAcceptBytes := by
  refine ⟨fun resp key h1 h2 h3 => ?_, fun k₁ k₂ h => by rw [h], by decide⟩
  have hv : clientValidate key resp =
      (match headerValue resp.headers nameSecAccept with
       | none => .error .MissingOrInvalidAccept
       | some v =>
         if v ≠ generateSecAccept key then .error .MissingOrInvalidAccept
         else .ok ()) := by
    unfold clientValidate
    rw [if_neg (by simp [h1]), if_neg (by simp [h2]), if_neg (by simp [h3])]
  constructor
  · rw [hv]
    cases hval : headerValue resp.headers nameSecAccept with
    | none => simp
    | some v =>
      by_cases hveq : v = generateSecAccept key
      · subst hveq
        simp
      · simp [hveq]
  · intro hne
    rw [hv]
    cases hval : headerValue resp.headers nameSecAccept with
    | none => rfl
    | some v =>
      have hvne : v ≠ generateSecAccept key := by
        rw [hval] at hne
        simpa using hne
      simp [hvne]

/-- Claim C8 witness: a response carrying exactly the derived accept value
for the sample key passes validation. -/
theorem clientValidate_accept_spec_witness :
    clientValidate sampleKeyBytes
      { code := 101,
        headers := [{ name := nameUpgrade, value := valueWebsocket },
                    { name := nameConnection, value := nameUpgrade },
                    { name := nameSecAccept, value := generateSecAccept sampleKeyBytes }] } =
      .ok () :=
  ((clientValidate_accept_spec.1
    { code := 101,
      headers := [{ name := nameUpgrade, value := valueWebsocket },
                  { name := nameConnection, value := nameUpgrade },
                  { name := nameSecAccept, value := generateSecAccept sampleKeyBytes }] }
    sampleKeyBytes rfl (by decide) (by decide)).1).mpr (by decide)

theorem decodePhase1_err_rsv (u m : Bool) (src : List Nat) (h2 : 2 ≤ src.length)
    (hrsv : src.getD 0 0 &&& 0x40 ≠ 0 ∨ src.getD 0 0 &&& 0x20 ≠ 0 ∨
      src.getD 0 0 &&& 0x10 ≠ 0) :
    decodePhase1 u m src = .error .ReservedBitsNotZero := by
  simp only [List.getD_eq_getElem?_getD] at hrsv
  simp only [decodePhase1, List.getD_eq_getElem?_getD]
  rw [if_neg (by omega)]
  rw [if_pos (by simp only [Bool.or_eq_true, bne_iff_ne, ne_eq]; tauto)]

theorem decodePhase1_err_opcode (u m : Bool) (src : List Nat) (h2 : 2 ≤ src.length)
    (h40 : src.getD 0 0 &&& 0x40 = 0) (h20 : src.getD 0 0 &&& 0x20 = 0)
    (h10 : src.getD 0 0 &&& 0x10 = 0)
    (hop : OpCode.ofNat? (src.getD 0 0 &&& 0x0F) = none) :
    decodePhase1 u m src = .error .InvalidOpCode := by
  simp only [List.getD_eq_getElem?_getD] at h40 h20 h10 hop
  simp only [decodePhase1, List.getD_eq_getElem?_getD]
  rw [if_neg (by omega)]
  rw [if_neg (by simp [h40, h20, h10])]
  rw [hop]

theorem decodePhase1_err_unmasked (u m : Bool) (src : List Nat) (op : OpCode)
    (h2 : 2 ≤ src.length)
    (h40 : src.getD 0 0 &&& 0x40 = 0) (h20 : src.getD 0 0 &&& 0x20 = 0)
    (h10 : src.getD 0 0 &&& 0x10 = 0)
    (hop : OpCode.ofNat? (src.getD 0 0 &&& 0x0F) = some op)
    (hu : u = true) (hm : m = false) (hmask : src.getD 1 0 &&& 0x80 = 0) :
    decodePhase1 u m src = .error .UnmaskedFrameFromClient := by
  simp only [List.getD_eq_getElem?_getD] at h40 h20 h10 hop hmask
  simp only [decodePhase1, List.getD_eq_getElem?_getD]
  rw [if_neg (by omega)]
  rw [if_neg (by simp [h40, h20, h10])]
  simp only [hop]
  rw [if_pos (by simp [hu, hm, hmask])]

theorem decodePhase1_err_masked (u m : Bool) (src : List Nat) (op : OpCode)
    (h2 : 2 ≤ src.length)
    (h40 : src.getD 0 0 &&& 0x40 = 0) (h20 : src.getD 0 0 &&& 0x20 = 0)
    (h10 : src.getD 0 0 &&& 0x10 = 0)
    (hop : OpCode.ofNat? (src.getD 0 0 &&& 0x0F) = some op)
    (hm : m = true) (hu : u = false) (hmask : src.getD 1 0 &&& 0x80 ≠ 0) :
    decodePhase1 u m src = .error .MaskedFrameFromServer := by
  simp only [List.getD_eq_getElem?_getD] at h40 h20 h10 hop hmask
  simp only [decodePhase1, List.getD_eq_getElem?_getD]
  rw [if_neg (by omega)]
  rw [if_neg (by simp [h40, h20, h10])]
  simp only [hop]
  rw [if_neg (by simp [hu])]
  rw [if_pos (by simp [hu, hm, bne_iff_ne, hmask])]

theorem decodePhase1_ok_fwd (u m : Bool) (src : List Nat) (op : OpCode)
    (h2 : 2 ≤ src.length)
    (h40 : src.getD 0 0 &&& 0x40 = 0) (h20 : src.getD 0 0 &&& 0x20 = 0)
    (h10 : src.getD 0 0 &&& 0x10 = 0)
    (hop : OpCode.ofNat? (src.getD 0 0 &&& 0x0F) = some op)
    (hrole1 : (u && !m) = true → src.getD 1 0 &&& 0x80 ≠ 0)
    (hrole2 : (m && !u) = true → src.getD 1 0 &&& 0x80 = 0) :
    decodePhase1 u m src = .ok (some
      { fin := src.getD 0 0 &&& 0x80 != 0, opcode := op,
        masked := src.getD 1 0 &&& 0x80 != 0,
        length_code := lengthCodeOf (src.getD 1 0),
        extra := extraOf (lengthCodeOf (src.getD 1 0)),
        min_src_len := 2 + extraOf (lengthCodeOf (src.getD 1 0)) +
          (if src.getD 1 0 &&& 0x80 != 0 then 4 else 0) }) := by
  simp only [List.getD_eq_getElem?_getD] at h40 h20 h10 hop hrole1 hrole2 ⊢
  simp only [decodePhase1, List.getD_eq_getElem?_getD]
  rw [if_neg (by omega)]
  rw [if_neg (by simp [h40, h20, h10])]
  simp only [hop]
  have hc1 : (u && !m && !(src[1]?.getD 0 &&& 0x80 != 0)) = false := by
    cases hs : (u && !m)
    · simp
    · have := hrole1 hs
      simp [bne_iff_ne, this]
  have hc2 : (m && !u && (src[1]?.getD 0 &&& 0x80 != 0)) = false := by
    cases hs : (m && !u)
    · simp
    · have := hrole2 hs
      simp [bne_iff_ne, this]
  simp only [hc1, hc2, Bool.false_eq_true, if_false]

theorem decodePhase2_err_fragmented (src : List Nat) (st : HeaderState)
    (hlen : st.min_src_len ≤ src.length) (hc : st.opcode.is_control = true)
    (hf : st.fin = false) :
    decodePhase2 src st = .error .ControlFrameFragmented := by
  simp only [decodePhase2]
  rw [if_neg (by omega)]
  rw [if_pos (by simp [hc, hf])]

theorem decodePhase2_err_toolarge (src : List Nat) (st : HeaderState)
    (hlen : st.min_src_len ≤ src.length) (hc : st.opcode.is_control = true)
    (hf : st.fin = true)
    (hl : 125 < payloadLenOf src st.length_code st.extra) :
    decodePhase2 src st = .error .ControlFrameTooLarge := by
  simp only [decodePhase2]
  rw [if_neg (by omega)]
  rw [if_neg (by simp [hc, hf])]
  rw [if_pos (by simp [hc, hl])]




theorem decodePhase1_error_inv (u m : Bool) (src : List Nat) (e : FrameDecodeError)
    (h : decodePhase1 u m src = .error e) :
    2 ≤ src.length ∧
    ((e = .ReservedBitsNotZero ∧
        (src.getD 0 0 &&& 0x40 ≠ 0 ∨ src.getD 0 0 &&& 0x20 ≠ 0 ∨ src.getD 0 0 &&& 0x10 ≠ 0)) ∨
     (e = .InvalidOpCode ∧ OpCode.ofNat? (src.getD 0 0 &&& 0x0F) = none) ∨
     (e = .UnmaskedFrameFromClient ∧ (u && !m) = true ∧ src.getD 1 0 &&& 0x80 = 0) ∨
     (e = .MaskedFrameFromServer ∧ (m && !u) = true ∧ src.getD 1 0 &&& 0x80 ≠ 0)) := by
  simp only [decodePhase1] at h
  split at h
  · exact absurd h (by simp)
  constructor
  · omega
  split at h
  · rename_i hrsv
    simp only [Except.error.injEq] at h
    subst h
    refine Or.inl ⟨rfl, ?_⟩
    have := hrsv
    simp only [Bool.or_eq_true, bne_iff_ne, ne_eq] at this
    tauto
  split at h
  · rename_i hop
    simp only [Except.error.injEq] at h
    subst h
    exact Or.inr (Or.inl ⟨rfl, hop⟩)
  · rename_i op hop
    split at h
    · rename_i hrole
      simp only [Except.error.injEq] at h
      subst h
      refine Or.inr (Or.inr (Or.inl ⟨rfl, ?_, ?_⟩))
      · exact (Bool.and_eq_true_iff.mp hrole).1
      · have := (Bool.and_eq_true_iff.mp hrole).2
        simpa [bne_iff_ne] using this
    split at h
    · rename_i hrole2
      simp only [Except.error.injEq] at h
      subst h
      refine Or.inr (Or.inr (Or.inr ⟨rfl, ?_, ?_⟩))
      · exact (Bool.and_eq_true_iff.mp hrole2).1
      · have := (Bool.and_eq_true_iff.mp hrole2).2
        simpa [bne_iff_ne] using this
    · exact absurd h (by simp)

theorem decodePhase1_ok_some_inv (u m : Bool) (src : List Nat) (st : HeaderState)
    (h : decodePhase1 u m src = .ok (some st)) :
    2 ≤ src.length ∧
    OpCode.ofNat? (src.getD 0 0 &&& 0x0F) = some st.opcode ∧
    st.fin = (src.getD 0 0 &&& 0x80 != 0) ∧
    st.masked = (src.getD 1 0 &&& 0x80 != 0) ∧
    st.length_code = lengthCodeOf (src.getD 1 0) ∧
    st.extra = extraOf (lengthCodeOf (src.getD 1 0)) := by
  simp only [decodePhase1] at h
  split at h
  · exact absurd h (by simp)
  split at h
  · exact absurd h (by simp)
  split at h
  · exact absurd h (by simp)
  rename_i op hop
  split at h
  · exact absurd h (by simp)
  split at h
  · exact absurd h (by simp)
  simp only [Except.ok.injEq, Option.some.injEq] at h
  subst h
  refine ⟨by omega, hop, rfl, rfl, rfl, rfl⟩

theorem decodePhase2_error_inv (src : List Nat) (st : HeaderState) (e : FrameDecodeError)
    (h : decodePhase2 src st = .error e) :
    st.min_src_len ≤ src.length ∧ st.opcode.is_control = true ∧
    ((e = .ControlFrameFragmented ∧ st.fin = false) ∨
     (e = .ControlFrameTooLarge ∧ st.fin = true ∧
       125 < payloadLenOf src st.length_code st.extra)) := by
  simp only [decodePhase2] at h
  split at h
  · exact absurd h (by simp)
  rename_i hlen
  refine ⟨by omega, ?_⟩
  split at h
  · rename_i hfrag
    simp only [Except.error.injEq] at h
    subst h
    obtain ⟨hc, hf⟩ := Bool.and_eq_true_iff.mp hfrag
    exact ⟨hc, Or.inl ⟨rfl, by simpa using hf⟩⟩
  split at h
  · rename_i hnofrag hlarge
    simp only [Except.error.injEq] at h
    subst h
    obtain ⟨hc, hl⟩ := Bool.and_eq_true_iff.mp hlarge
    refine ⟨hc, Or.inr ⟨rfl, ?_, by simpa using hl⟩⟩
    by_contra hf
    have hf2 : st.fin = false := by
      cases hfin : st.fin
      · rfl
      · exact absurd hfin hf
    exact hnofrag (by simp [hc, hf2])
  · exact absurd h (by simp)

/-- Claim C4: the incremental frame decoder fails reserved-bits-not-zero
when any of rsv1-rsv3 of byte 0 is set, invalid-opcode when the low 4 bits
of byte 0 are not a defined opcode, unmasked-frame-from-client when the
codec is a server (unmask and not mask) and the mask bit of byte 1 is
clear, masked-frame-from-server when the codec is a client and the mask
bit is set, and — once the extended length and mask key are buffered — 
control-frame-fragmented for a control opcode with fin=false and
control-frame-too-large for a control opcode whose decoded payload length
exceeds 125; conversely (second conjunct) every error the decoder raises
is one of these with its condition holding, so absent all the conditions
none of these errors is raised. -/
theorem decode_error_spec (u m : Bool) (src : List Nat) :
    (2 ≤ src.length →
      ((src.getD 0 0 &&& 0x40 ≠ 0 ∨ src.getD 0 0 &&& 0x20 ≠ 0 ∨ src.getD 0 0 &&& 0x10 ≠ 0) →
        decode u m src = .error .ReservedBitsNotZero) ∧
      (src.getD 0 0 &&& 0x40 = 0 → src.getD 0 0 &&& 0x20 = 0 → src.getD 0 0 &&& 0x10 = 0 →
        (OpCode.ofNat? (src.getD 0 0 &&& 0x0F) = none →
          decode u m src = .error .InvalidOpCode) ∧
        (∀ op, OpCode.ofNat? (src.getD 0 0 &&& 0x0F) = some op →
          (u = true → m = false → src.getD 1 0 &&& 0x80 = 0 →
            decode u m src = .error .UnmaskedFrameFromClient) ∧
          (m = true → u = false → src.getD 1 0 &&& 0x80 ≠ 0 →
            decode u m src = .error .MaskedFrameFromServer) ∧
          (op.is_control = true →
            ((u && !m) = true → src.getD 1 0 &&& 0x80 ≠ 0) →
            ((m && !u) = true → src.getD 1 0 &&& 0x80 = 0) →
            2 + extraOf (lengthCodeOf (src.getD 1 0)) +
              (if src.getD 1 0 &&& 0x80 != 0 then 4 else 0) ≤ src.length →
            (src.getD 0 0 &&& 0x80 = 0 →
              decode u m src = .error .ControlFrameFragmented) ∧
            (src.getD 0 0 &&& 0x80 ≠ 0 →
              125 < payloadLenOf src (lengthCodeOf (src.getD 1 0))
                (extraOf (lengthCodeOf (src.getD 1 0))) →
              decode u m src = .error .ControlFrameTooLarge))))) ∧
    (∀ e, decode u m src = .error e →
      (e = .ReservedBitsNotZero ∧
        (src.getD 0 0 &&& 0x40 ≠ 0 ∨ src.getD 0 0 &&& 0x20 ≠ 0 ∨
          src.getD 0 0 &&& 0x10 ≠ 0)) ∨
      (e = .InvalidOpCode ∧ OpCode.ofNat? (src.getD 0 0 &&& 0x0F) = none) ∨
      (e = .UnmaskedFrameFromClient ∧ (u && !m) = true ∧ src.getD 1 0 &&& 0x80 = 0) ∨
      (e = .MaskedFrameFromServer ∧ (m && !u) = true ∧ src.getD 1 0 &&& 0x80 ≠ 0) ∨
      (∃ op, OpCode.ofNat? (src.getD 0 0 &&& 0x0F) = some op ∧ op.is_control = true ∧
        ((e = .ControlFrameFragmented ∧ src.getD 0 0 &&& 0x80 = 0) ∨
         (e = .ControlFrameTooLarge ∧ 125 < payloadLenOf src (lengthCodeOf (src.getD 1 0))
            (extraOf (lengthCodeOf (src.getD 1 0))))))) := by
  constructor
  · intro h2
    constructor
    · intro hrsv
      have hp1 := decodePhase1_err_rsv u m src h2 hrsv
      simp only [decode, hp1]
    intro h40 h20 h10
    constructor
    · intro hop
      have hp1 := decodePhase1_err_opcode u m src h2 h40 h20 h10 hop
      simp only [decode, hp1]
    intro op hop
    refine ⟨fun hu hm hmask => ?_, fun hm hu hmask => ?_, fun hctl hrole1 hrole2 henough => ?_⟩
    · have hp1 := decodePhase1_err_unmasked u m src op h2 h40 h20 h10 hop hu hm hmask
      simp only [decode, hp1]
    · have hp1 := decodePhase1_err_masked u m src op h2 h40 h20 h10 hop hm hu hmask
      simp only [decode, hp1]
    · have hp1 := decodePhase1_ok_fwd u m src op h2 h40 h20 h10 hop hrole1 hrole2
      refine ⟨fun hfin => ?_, fun hfin hlarge => ?_⟩
      · have hp2 := decodePhase2_err_fragmented src
          { fin := src.getD 0 0 &&& 0x80 != 0, opcode := op,
            masked := src.getD 1 0 &&& 0x80 != 0,
            length_code := lengthCodeOf (src.getD 1 0),
            extra := extraOf (lengthCodeOf (src.getD 1 0)),
            min_src_len := 2 + extraOf (lengthCodeOf (src.getD 1 0)) +
              (if src.getD 1 0 &&& 0x80 != 0 then 4 else 0) }
          henough hctl (by simp only [hfin]; rfl)
        simp only [decode, hp1, hp2]
      · have hp2 := decodePhase2_err_toolarge src
          { fin := src.getD 0 0 &&& 0x80 != 0, opcode := op,
            masked := src.getD 1 0 &&& 0x80 != 0,
            length_code := lengthCodeOf (src.getD 1 0),
            extra := extraOf (lengthCodeOf (src.getD 1 0)),
            min_src_len := 2 + extraOf (lengthCodeOf (src.getD 1 0)) +
              (if src.getD 1 0 &&& 0x80 != 0 then 4 else 0) }
          henough hctl (by simpa [bne_iff_ne] using hfin) hlarge
        simp only [decode, hp1, hp2]
  · intro e h
    unfold decode at h
    split at h
    · rename_i e1 hp1
      simp only [Except.error.injEq] at h
      subst h
      obtain ⟨_, hinv⟩ := decodePhase1_error_inv u m src _ hp1
      rcases hinv with ⟨he, hc⟩ | ⟨he, hc⟩ | ⟨he, hc1, hc2⟩ | ⟨he, hc1, hc2⟩
      · exact Or.inl ⟨he, hc⟩
      · exact Or.inr (Or.inl ⟨he, hc⟩)
      · exact Or.inr (Or.inr (Or.inl ⟨he, hc1, hc2⟩))
      · exact Or.inr (Or.inr (Or.inr (Or.inl ⟨he, hc1, hc2⟩)))
    · exact absurd h (by simp)
    · rename_i st hp1
      split at h
      · rename_i e2 hp2
        simp only [Except.error.injEq] at h
        subst h
        obtain ⟨_, hopeq, hfineq, _, hlceq, hexeq⟩ :=
          decodePhase1_ok_some_inv u m src st hp1
        obtain ⟨_, hctl, hinv⟩ := decodePhase2_error_inv src st _ hp2
        refine Or.inr (Or.inr (Or.inr (Or.inr ⟨st.opcode, hopeq, hctl, ?_⟩)))
        rcases hinv with ⟨he, hf⟩ | ⟨he, _, hl⟩
        · refine Or.inl ⟨he, ?_⟩
          rw [hf] at hfineq
          simpa [bne_iff_ne] using hfineq.symm
        · refine Or.inr ⟨he, ?_⟩
          rw [hlceq, hexeq] at hl
          exact hl
      · exact absurd h (by simp)
      · rename_i st2 hp2
        split at h
        · exact absurd h (by simp)
        · exact absurd h (by simp)



/-- Claim C4 witness: the 2-byte input FF 00 has rsv bits set, and the
decoder fails reserved-bits-not-zero on it. -/
theorem decode_error_spec_witness :
    decode false false [0xFF, 0x00] = .error .ReservedBitsNotZero :=
  ((decode_error_spec false false [0xFF, 0x00]).1 (by decide)).1 (by decide)

end Websocketz
